import Mathlib

/-!
Verification development for the NGSI-LD entity translation module
(`lib/services/ngsi/entities-NGSI-LD.js`).

The JavaScript module is shallowly embedded: JSON values are modelled by the
mutually inductive type `JV` (with `JVs` for arrays and `Fields` for objects,
keeping JavaScript insertion order), JavaScript numbers by exact rationals
(plus an explicit `nan`), and the module's functions by executable Lean
functions of the same names.  External collaborators that are not part of the
visible source (the `moment` library, `ngsiUtils`, the constants module, the
alarm manager) are modelled from the specification; each such definition says
so in its doc comment.
-/

mutual
/-- Model of a JavaScript (JSON-ish) value: strings, numbers (exact rationals,
with `nan` kept separate), booleans, `null`, `undefined`, arrays and objects.
Objects are ordered association lists, mirroring JavaScript insertion order. -/
inductive JV where
  | str (s : String)
  | num (q : Rat)
  | nan
  | jbool (b : Bool)
  | jnull
  | undef
  | arr (es : JVs)
  | obj (fs : Fields)
  deriving Repr, DecidableEq
inductive JVs where
  | nil
  | cons (head : JV) (tail : JVs)
  deriving Repr, DecidableEq
inductive Fields where
  | nil
  | cons (key : String) (val : JV) (tail : Fields)
  deriving Repr, DecidableEq
end

/-- Length of a modelled JavaScript array. -/
def JVs.length : JVs → Nat
  | .nil => 0
  | .cons _ t => 1 + JVs.length t

/-- Concatenation of modelled JavaScript arrays. -/
def JVs.append : JVs → JVs → JVs
  | .nil, ys => ys
  | .cons h t, ys => .cons h (JVs.append t ys)

/-- Build a modelled array from a Lean list. -/
def JVs.ofList : List JV → JVs
  | [] => .nil
  | v :: t => .cons v (JVs.ofList t)

/-- View a modelled array as a Lean list. -/
def JVs.toList : JVs → List JV
  | .nil => []
  | .cons h t => h :: JVs.toList t

/-- Number of bindings of a modelled object (`Object.keys(o).length` for the
duplicate-free objects all constructions below produce). -/
def Fields.length : Fields → Nat
  | .nil => 0
  | .cons _ _ t => 1 + Fields.length t

/-- Property read, `o[k]`: the first binding of `k`, if any. -/
def Fields.getKey : Fields → String → Option JV
  | .nil, _ => none
  | .cons k0 v t, k => if k0 = k then some v else Fields.getKey t k

/-- Property presence, `k in o`. -/
def Fields.hasKey (o : Fields) (k : String) : Bool :=
  (o.getKey k).isSome

/-- Property assignment, `o[k] = v`: an existing binding keeps its position
(JavaScript objects preserve the original insertion slot on re-assignment); a
new key is appended at the end. -/
def Fields.set : Fields → String → JV → Fields
  | .nil, k, v => .cons k v .nil
  | .cons k0 v0 t, k, v =>
      if k0 = k then .cons k0 v t else .cons k0 v0 (Fields.set t k v)

/-- Property deletion, `delete o[k]` (removes every binding of `k`; the
objects built by this development bind each key at most once, as JavaScript
objects do). -/
def Fields.delKey : Fields → String → Fields
  | .nil, _ => .nil
  | .cons k0 v t, k =>
      if k0 = k then Fields.delKey t k else .cons k0 v (Fields.delKey t k)

/-- View a modelled object as a Lean association list. -/
def Fields.toList : Fields → List (String × JV)
  | .nil => []
  | .cons k v t => (k, v) :: Fields.toList t

/-- Decidable equality of fallible results, used only to evaluate the model
on concrete inputs. -/
instance {ε α : Type} [DecidableEq ε] [DecidableEq α] : DecidableEq (Except ε α) := fun a b =>
  match a, b with
  | .ok x, .ok y => decidable_of_iff (x = y) (by simp)
  | .error x, .error y => decidable_of_iff (x = y) (by simp)
  | .ok _, .error _ => isFalse (by simp)
  | .error _, .ok _ => isFalse (by simp)

/-- Lower-casing of a string, character by character (model of the JavaScript
`String.prototype.toLowerCase` restricted to ASCII, which is all the type tags
use). -/
def jsToLower (s : String) : String :=
  (s.toList.map Char.toLower).asString

/-- Split a character list at a separator character, `String.prototype.split`
style: `"".split(sep)` gives one empty group, and separators at the ends give
empty groups. -/
def splitChars (sep : Char) : List Char → List (List Char)
  | [] => [[]]
  | c :: rest =>
      let r := splitChars sep rest
      if c = sep then [] :: r
      else
        match r with
        | [] => [[c]]
        | g :: gs => (c :: g) :: gs

/-- Numeric value of a list of decimal digit characters. -/
def digitsVal (cs : List Char) : Nat :=
  cs.foldl (fun a c => 10 * a + (c.toNat - 48)) 0

/-- Model of the JavaScript `Number.parseFloat` builtin on a character list:
skip leading whitespace, optional sign, decimal digits with at most one point,
ignoring any trailing garbage; no digits at all gives `nan`.  (Exponent forms
and hexadecimal input are outside the inputs this module receives and are not
modelled.) -/
def jsParseFloatChars (cs0 : List Char) : JV :=
  let cs1 := cs0.dropWhile (fun c => c = ' ' ∨ c = '\t' ∨ c = '\n' ∨ c = '\r')
  let (neg, cs2) :=
    match cs1 with
    | '-' :: t => (true, t)
    | '+' :: t => (false, t)
    | _ => (false, cs1)
  let intPart := cs2.takeWhile Char.isDigit
  let rest := cs2.dropWhile Char.isDigit
  let fracPart :=
    match rest with
    | '.' :: t => t.takeWhile Char.isDigit
    | _ => []
  if intPart.isEmpty ∧ fracPart.isEmpty then .nan
  else
    let m : Nat := digitsVal (intPart ++ fracPart)
    let q : Rat := mkRat (if neg then -(m : Int) else (m : Int)) (10 ^ fracPart.length)
    .num q

/-- Model of the JavaScript `Number.parseInt` builtin on a character list:
skip leading whitespace, optional sign, leading decimal digits only. -/
def jsParseIntChars (cs0 : List Char) : JV :=
  let cs1 := cs0.dropWhile (fun c => c = ' ' ∨ c = '\t' ∨ c = '\n' ∨ c = '\r')
  let (neg, cs2) :=
    match cs1 with
    | '-' :: t => (true, t)
    | '+' :: t => (false, t)
    | _ => (false, cs1)
  let intPart := cs2.takeWhile Char.isDigit
  if intPart.isEmpty then .nan
  else
    let m : Nat := digitsVal intPart
    .num (mkRat (if neg then -(m : Int) else (m : Int)) 1)

/-- Truncation of a rational toward zero (what stringifying a JavaScript
number and re-reading its leading digits computes). -/
def ratTrunc (q : Rat) : Rat :=
  mkRat (q.num.tdiv (q.den : Int)) 1

/-- Model of `Number.parseFloat` on a JavaScript value: the argument is
coerced to a string first, so numbers pass through, the first element of an
array is parsed, and other values stringify to something non-numeric. -/
def jsParseFloat : JV → JV
  | .str s => jsParseFloatChars s.toList
  | .num q => .num q
  | .arr (.cons h _) => jsParseFloat h
  | _ => .nan

/-- Model of `Number.parseInt` on a JavaScript value (string coercion as in
`jsParseFloat`, then integer truncation). -/
def jsParseInt : JV → JV
  | .str s => jsParseIntChars s.toList
  | .num q => .num (ratTrunc q)
  | .arr (.cons h _) => jsParseInt h
  | _ => .nan

/-- Model of the JavaScript `Number` coercion, used by the global `isNaN`:
empty or blank strings coerce to `0`, other strings must parse entirely,
booleans and `null` coerce to numbers, `undefined` and plain objects to
`NaN`, and a one-element array coerces as its element. -/
def jsToNumber : JV → JV
  | .num q => .num q
  | .nan => .nan
  | .jbool b => .num (mkRat (if b then 1 else 0) 1)
  | .jnull => .num (mkRat 0 1)
  | .undef => .nan
  | .str s =>
      let cs := s.toList.dropWhile (fun c => c = ' ' ∨ c = '\t' ∨ c = '\n' ∨ c = '\r')
      let cs := (cs.reverse.dropWhile (fun c => c = ' ' ∨ c = '\t' ∨ c = '\n' ∨ c = '\r')).reverse
      if cs.isEmpty then .num (mkRat 0 1)
      else
        let (neg, cs2) :=
          match cs with
          | '-' :: t => (true, t)
          | '+' :: t => (false, t)
          | _ => (false, cs)
        let intPart := cs2.takeWhile Char.isDigit
        let rest := cs2.dropWhile Char.isDigit
        let fracPart :=
          match rest with
          | '.' :: t => t.takeWhile Char.isDigit
          | _ => []
        let leftover :=
          match rest with
          | '.' :: t => t.dropWhile Char.isDigit
          | r => r
        if (intPart.isEmpty ∧ fracPart.isEmpty) ∨ ¬ leftover.isEmpty then .nan
        else
          .num (mkRat (if neg then -(digitsVal (intPart ++ fracPart) : Int)
                       else (digitsVal (intPart ++ fracPart) : Int))
                      (10 ^ fracPart.length))
  | .arr .nil => .num (mkRat 0 1)
  | .arr (.cons h .nil) => jsToNumber h
  | .arr _ => .nan
  | .obj _ => .nan

/-- Model of the JavaScript global `isNaN` (coerce with `Number`, test for
`NaN`). -/
def jsIsNaN (v : JV) : Bool :=
  match jsToNumber v with
  | .nan => true
  | _ => false

/-- Model of JavaScript truthiness (`!!v`). -/
def jsTruthy : JV → Bool
  | .str s => s ≠ ""
  | .num q => q ≠ 0
  | .nan => false
  | .jbool b => b
  | .jnull => false
  | .undef => false
  | .arr _ => true
  | .obj _ => true

/-- Model of JavaScript strict equality `===` on the primitive values this
module compares (strings, numbers, booleans, `null`, `undefined`; `NaN` is
not equal to itself; objects and arrays compare by reference and are modelled
as never strictly equal). -/
def jsStrictEq : JV → JV → Bool
  | .str a, .str b => a = b
  | .num a, .num b => a = b
  | .jbool a, .jbool b => a = b
  | .jnull, .jnull => true
  | .undef, .undef => true
  | _, _ => false

/-- The `NGSI_LD_NULL` constant of the module. -/
def NGSI_LD_NULL : JV :=
  .obj (.cons "@type" (.str "Intangible") (.cons "@value" .jnull .nil))

/-- The `NGSI_LD_URN` constant of the module. -/
def NGSI_LD_URN : String := "urn:ngsi-ld:"

/-- Source function `valueOfOrNull`: a `NaN` value is replaced by the NGSI-LD
null object. -/
def valueOfOrNull (value : JV) : JV :=
  if jsIsNaN value then NGSI_LD_NULL else value

/-- Source function `valueOfOrDefault`: a `NaN` value is replaced by the
given default. -/
def valueOfOrDefault (value defaultValue : JV) : JV :=
  if jsIsNaN value then defaultValue else value

/-- Comma-split of a string into parsed floats: the string branch of source
function `splitLngLat` (the split groups can no longer contain a comma, so
each group is parsed directly). -/
def splitStrToJVs (s : String) : JVs :=
  JVs.ofList ((splitChars ',' s.toList).map (fun g => jsParseFloatChars g))

mutual
/-- Elementwise transformation applied by `splitLngLat` to the elements of an
array argument: nested arrays recurse, strings containing a comma are split,
and anything else goes through `Number.parseFloat`. -/
def splitElem : JV → JV
  | .arr es => .arr (splitElems es)
  | .str s => if s.toList.contains ',' then .arr (splitStrToJVs s) else jsParseFloatChars s.toList
  | x => jsParseFloat x
def splitElems : JVs → JVs
  | .nil => .nil
  | .cons h t => .cons (splitElem h) (splitElems t)
end

/-- Source function `splitLngLat`: a comma separated string splits into
parsed floats, an array is transformed elementwise, and any other argument
makes the JavaScript `forEach` call throw (surfacing as an error, which the
caller's try/catch turns into `BadGeocoordinates`). -/
def splitLngLat : JV → Except Unit JVs
  | .str s => .ok (splitStrToJVs s)
  | .arr es => .ok (splitElems es)
  | _ => .error ()

mutual
/-- Deep flattening of a modelled array (`_.flatten` of the underscore
library, which the source applies to the split coordinates). -/
def flattenJV : JV → JVs
  | .arr es => flattenJVs es
  | x => .cons x .nil
def flattenJVs : JVs → JVs
  | .nil => .nil
  | .cons h t => JVs.append (flattenJV h) (flattenJVs t)
end

/-- Pair up an even-length flat list into two-element coordinate arrays (the
final loop of source function `getLngLats`). -/
def pairUp : JVs → JVs
  | .cons a (.cons b t) => .cons (.arr (.cons a (.cons b .nil))) (pairUp t)
  | _ => .nil

/-- Source function `getLngLats`: split and deep-flatten the value; a
two-element result is returned flat, an odd-length result is a hard error,
and an even-length result is paired up. -/
def getLngLats (value : JV) : Except Unit JV := do
  let parts ← splitLngLat value
  let lngLats := flattenJVs parts
  if lngLats.length = 2 then
    return .arr lngLats
  else if lngLats.length % 2 ≠ 0 then
    throw ()
  else
    return .arr (pairUp lngLats)

/-- Modelled from the spec: `constants.TIMESTAMP_ATTRIBUTE` of the constants
module (not under src/); the module's own hard-coded `delete obj.TimeInstant`
statements corroborate the value. -/
def TIMESTAMP_ATTRIBUTE : String := "TimeInstant"

/-- Modelled from the spec: `constants.ATTRIBUTE_DEFAULT`, the sentinel
default attribute value of the constants module (not under src/); the
release notes record that the default attribute value is `null`. -/
def ATTRIBUTE_DEFAULT : JV := .jnull

/-- Modelled from the spec: `constants.DATETIME_DEFAULT`, the fixed default
timestamp string substituted for sentinel or unparseable timestamps. -/
def DATETIME_DEFAULT : String := "1970-01-01T00:00:00.000Z"

/-- Shape check used by the simplified calendar model: the pattern characters
are `N` for a decimal digit and any other character stands for itself. -/
def matchShape : List Char → List Char → Bool
  | [], [] => true
  | 'N' :: ps, c :: cs => c.isDigit && matchShape ps cs
  | p :: ps, c :: cs => (p = c : Bool) && matchShape ps cs
  | _, _ => false

/-- Modelled from the spec: the validity check of the external `moment`
library, simplified to the UTC-normalized ISO-8601 shapes this module
exchanges: a date-time core, optionally followed by `Z` or by milliseconds
and `Z`. -/
def momentIsValidChars (cs : List Char) : Bool :=
  matchShape "NNNN-NN-NNTNN:NN:NN".toList (cs.take 19) &&
    (let rest := cs.drop 19
     rest = [] || rest = ['Z'] || matchShape ".NNNZ".toList rest)

/-- Validity of a timestamp value: `moment(value).isValid()`; values other
than the strings the simplified calendar model accepts are invalid. -/
def momentIsValidJV : JV → Bool
  | .str s => momentIsValidChars s.toList
  | _ => false

/-- Modelled from the spec: `moment.tz(value, 'Etc/UTC').toISOString()`,
rendering a valid timestamp with explicit milliseconds and `Z`; an invalid
one renders as `null`, which the classified paths never reach. -/
def momentToISO : JV → JV
  | .str s =>
      if momentIsValidChars s.toList then
        .str ((s.toList.take 19).asString ++
          (if matchShape ".NNNZ".toList (s.toList.drop 19) then (s.toList.drop 19).asString
           else ".000Z"))
      else .jnull
  | _ => .jnull

/-- Modelled from the spec: `moment.tz(value, 'Etc/UTC').format(DATE)`, the
date part of a valid timestamp. -/
def momentFormatDate : JV → JV
  | .str s =>
      if momentIsValidChars s.toList then .str ((s.toList.take 10).asString)
      else .str "Invalid date"
  | _ => .str "Invalid date"

/-- Modelled from the spec: `moment.tz(value, 'Etc/UTC').format(TIME_SECONDS)`,
the time part of a valid timestamp. -/
def momentFormatTime : JV → JV
  | .str s =>
      if momentIsValidChars s.toList then .str (((s.toList.drop 11).take 8).asString)
      else .str "Invalid date"
  | _ => .str "Invalid date"

/-- Modelled from the spec: `NGSIUtils.isFloat` of `ngsiUtils.js` (not under
src/), a strict-equality numeric check that holds only for native numbers
with a fractional part (never for strings). -/
def isFloat : JV → Bool
  | .num q => q.den ≠ 1
  | _ => false

mutual
/-- An NGSI-v2 attribute as the module receives it: declared type, value,
metadata (an ordered association of metadata names to attribute-shaped
entries, mirroring `Object.keys` insertion order; `MetaList.nil` models
absent metadata), and the internal bookkeeping fields `object_id` and
`multi` that the multientity plugin may have attached. -/
inductive V2Attr where
  | mk (type : String) (value : JV) (metadata : MetaList)
       (objectId : Option String) (multi : Option JV)
  deriving Repr, DecidableEq
/-- Ordered metadata of an attribute. -/
inductive MetaList where
  | nil
  | cons (key : String) (attr : V2Attr) (rest : MetaList)
  deriving Repr, DecidableEq
end

/-- Declared type of an attribute. -/
def V2Attr.type : V2Attr → String
  | .mk t _ _ _ _ => t

/-- Value of an attribute. -/
def V2Attr.value : V2Attr → JV
  | .mk _ v _ _ _ => v

/-- Metadata of an attribute. -/
def V2Attr.metadata : V2Attr → MetaList
  | .mk _ _ m _ _ => m

/-- Internal disambiguation key of an attribute, if attached. -/
def V2Attr.objectId : V2Attr → Option String
  | .mk _ _ _ o _ => o

/-- Internal `multi` marker of an attribute, if attached. -/
def V2Attr.multi : V2Attr → Option JV
  | .mk _ _ _ _ m => m

/-- The type-directed switch of source function `convertNGSIv2ToLD`: starting
from the object with a `Property` type and the raw value, each recognized
lower-cased type tag rewrites the value (and for geometries and relationships
the type); an unrecognized tag falls through to the pass-through wrapper. -/
def convertCore (a : V2Attr) : Except Unit Fields :=
  let obj : Fields := .cons "type" (.str "Property") (.cons "value" a.value .nil)
  match jsToLower a.type with
  | "property" | "string" => .ok obj
  | "boolean" => .ok (obj.set "value" (.jbool (jsTruthy a.value)))
  | "float" => .ok (obj.set "value" (valueOfOrDefault (jsParseFloat a.value) (.num 0)))
  | "integer" => .ok (obj.set "value" (valueOfOrDefault (jsParseInt a.value) (.num 0)))
  | "number" =>
      if isFloat a.value then
        .ok (obj.set "value" (valueOfOrDefault (jsParseFloat a.value) (.num 0)))
      else
        .ok (obj.set "value" (valueOfOrDefault (jsParseInt a.value) (.num 0)))
  | "datetime" =>
      .ok (obj.set "value" (.obj (.cons "@type" (.str "DateTime")
        (.cons "@value" (momentToISO a.value) .nil))))
  | "date" =>
      .ok (obj.set "value" (.obj (.cons "@type" (.str "Date")
        (.cons "@value" (momentFormatDate a.value) .nil))))
  | "time" =>
      .ok (obj.set "value" (.obj (.cons "@type" (.str "Time")
        (.cons "@value" (momentFormatTime a.value) .nil))))
  | "geoproperty" | "point" | "geo:point" => do
      let c ← getLngLats a.value
      .ok ((obj.set "type" (.str "GeoProperty")).set "value"
        (.obj (.cons "type" (.str "Point") (.cons "coordinates" c .nil))))
  | "linestring" | "geo:linestring" => do
      let c ← getLngLats a.value
      .ok ((obj.set "type" (.str "GeoProperty")).set "value"
        (.obj (.cons "type" (.str "LineString") (.cons "coordinates" c .nil))))
  | "polygon" | "geo:polygon" => do
      let c ← getLngLats a.value
      .ok ((obj.set "type" (.str "GeoProperty")).set "value"
        (.obj (.cons "type" (.str "Polygon") (.cons "coordinates" c .nil))))
  | "multipoint" | "geo:multipoint" => do
      let c ← getLngLats a.value
      .ok ((obj.set "type" (.str "GeoProperty")).set "value"
        (.obj (.cons "type" (.str "MultiPoint") (.cons "coordinates" c .nil))))
  | "multilinestring" | "geo:multilinestring" =>
      .ok ((obj.set "type" (.str "GeoProperty")).set "value"
        (.obj (.cons "type" (.str "MultiLineString") (.cons "coordinates" a.value .nil))))
  | "multipolygon" | "geo:multipolygon" =>
      .ok ((obj.set "type" (.str "GeoProperty")).set "value"
        (.obj (.cons "type" (.str "MultiPolygon") (.cons "coordinates" a.value .nil))))
  | "relationship" =>
      .ok (((obj.set "type" (.str "Relationship")).set "object" a.value).delKey "value")
  | _ =>
      .ok (obj.set "value" (.obj (.cons "@type" (.str a.type)
        (.cons "@value" a.value .nil))))

mutual
/-- Source function `convertNGSIv2ToLD`: the type-directed switch, then, when
metadata is present, the metadata loop followed by `delete obj.TimeInstant`. -/
def convertNGSIv2ToLD : V2Attr → Except Unit Fields
  | .mk ty v ml oid mu => do
      let obj ← convertCore (.mk ty v ml oid mu)
      match ml with
      | .nil => pure obj
      | .cons k ma rest => do
          let objm ← convertMetaList (.cons k ma rest) obj
          pure (objm.delKey TIMESTAMP_ATTRIBUTE)
/-- The metadata loop of `convertNGSIv2ToLD`: a timestamp entry sets
`observedAt` (with the sentinel/invalid fallback), a `unitCode` entry sets
`unitCode`, and any other entry is recursively converted and stored under its
own key. -/
def convertMetaList : MetaList → Fields → Except Unit Fields
  | .nil, obj => pure obj
  | .cons key ma rest, obj => do
      let objNext ←
        if key = TIMESTAMP_ATTRIBUTE then
          let timestamp := ma.value
          if jsStrictEq timestamp ATTRIBUTE_DEFAULT || !(momentIsValidJV timestamp) then
            pure (obj.set "observedAt" (.str DATETIME_DEFAULT))
          else
            pure (obj.set "observedAt" (momentToISO timestamp))
        else if key = "unitCode" then
          pure (obj.set "unitCode" ma.value)
        else do
          let conv ← convertNGSIv2ToLD ma
          pure (obj.set key (.obj conv))
      convertMetaList rest objNext
end

/-- An NGSI-v2 entity object: its `id` and `type` keys (absent when deleted)
and its remaining keys in insertion order.  The `id` and `type` keys are kept
apart from the attribute keys purely for convenience; iteration order is
`id`, `type`, then the attribute keys. -/
structure V2Entity where
  id : Option String
  type : Option String
  attrs : List (String × V2Attr)
  deriving Repr, DecidableEq

/-- Configuration consumed from `commonConfig` (not under src/): the
semicolon-separated JSON-LD context list and the global timestamp flag. -/
structure Cfg where
  jsonLdContext : String
  timestamp : Bool
  deriving Repr, DecidableEq

/-- Character-level test that one string leads (starts) another, modelling
`String.prototype.startsWith`. -/
def leadsChars : List Char → List Char → Bool
  | [], _ => true
  | _ :: _, [] => false
  | p :: ps, c :: cs => (p = c : Bool) && leadsChars ps cs

/-- The `type` string used when building a URN from an entity whose `type`
key is absent (JavaScript string concatenation renders it as `undefined`). -/
def typeOrUndefined : Option String → String
  | some t => t
  | none => "undefined"

/-- The attribute-key loop of source function `formatAsNGSILD`: `@context`
and the timestamp attribute are skipped, every other key is converted. -/
def formatAttrs : List (String × V2Attr) → Fields → Except Unit Fields
  | [], obj => pure obj
  | (k, a) :: rest, obj =>
      if k = "@context" ∨ k = TIMESTAMP_ATTRIBUTE then formatAttrs rest obj
      else do
        let c ← convertNGSIv2ToLD a
        formatAttrs rest (obj.set k (.obj c))

/-- Source function `formatAsNGSILD`: build the `@context` from
configuration, URN-prefix the `id` unless it is already URN-shaped, copy the
`type`, skip `@context` and the timestamp attribute, convert every other key,
and finally `delete obj.TimeInstant`. -/
def formatAsNGSILD (cfg : Cfg) (e : V2Entity) : Except Unit Fields := do
  let ctx : JV := .arr (JVs.ofList
    ((splitChars ';' cfg.jsonLdContext.toList).map (fun g => JV.str g.asString)))
  let obj : Fields := .cons "@context" ctx .nil
  let obj :=
    match e.id with
    | some i =>
        obj.set "id" (.str (if leadsChars NGSI_LD_URN.toList i.toList then i
          else NGSI_LD_URN ++ typeOrUndefined e.type ++ ":" ++ i))
    | none => obj
  let obj :=
    match e.type with
    | some t => obj.set "type" (.str t)
    | none => obj
  let obj ← formatAttrs e.attrs obj
  pure (obj.delKey TIMESTAMP_ATTRIBUTE)

/-- Character-level substring test, modelling `String.prototype.includes`. -/
def hasSubChars : List Char → List Char → Bool
  | [], needle => needle.isEmpty
  | c :: t, needle => leadsChars needle (c :: t) || hasSubChars t needle

/-- Substring test on strings. -/
def strIncludes (hay needle : String) : Bool :=
  hasSubChars hay.toList needle.toList

/-- An HTTP response as the transport hands it to the operation handler. -/
structure HResp where
  statusCode : Nat
  deriving Repr, DecidableEq

/-- The broker error field extracted from a response body.  Modelled from the
spec: `NGSIUtils.getErrorField` of `ngsiUtils.js` (not under src/) returns the
broker's structured error, here carried as an optional code and a detail
string (empty when absent). -/
structure ErrField where
  code : Option String
  details : String
  deriving Repr, DecidableEq

/-- A response body as the operation handler sees it: the `orionError` detail
when the broker reported a structured error, and the error field
`NGSIUtils.getErrorField` would extract.  An absent (`undefined` or empty)
body is modelled as `Option.none` at the use sites. -/
structure HBody where
  orionError : Option String
  errField : ErrField
  deriving Repr, DecidableEq

/-- The raw outcome of one transport exchange: the `(error, response, body)`
triple the `request` library passes to its callback. -/
structure NetRaw where
  error : Option String
  response : Option HResp
  body : Option HBody
  deriving Repr, DecidableEq

/-- Classified errors the operation handler can report through its callback. -/
inductive HErr where
  | transport (e : String)
  | badRequest (details : Option String)
  | badAnswer (status : Nat)
  | accessForbidden
  | deviceNotFound (entity : String)
  | attributeNotFound
  | entityGenericError (entity : String) (deviceType : String)
  deriving Repr, DecidableEq

/-- Modelled from the spec: the alarm-manager actions (`alarms.raise` and
`alarms.release` on the broker alarm key, from a module not under src/). -/
inductive AlarmAct where
  | raise
  | release
  deriving Repr, DecidableEq

/-- Modelled from the spec: the alarm gate is a process-wide boolean, set by
a raise and cleared by a release. -/
def applyAlarm (_s : Bool) (a : AlarmAct) : Bool :=
  match a with
  | .raise => true
  | .release => false

/-- State of the alarm gate after a sequence of actions. -/
def runAlarm (s : Bool) (acts : List AlarmAct) : Bool :=
  acts.foldl applyAlarm s

/-- The branches of the operation handler below the `orionError` check. -/
def generateHandlerTail (operationName entityName deviceType : String)
    (r : NetRaw) : List AlarmAct × Option HErr :=
  match r.response with
  | some resp =>
      if operationName = "update" ∧ resp.statusCode = 204 then
        ([.release], none)
      else if operationName = "query" ∧ r.body.isSome ∧ resp.statusCode = 200 then
        ([.release], none)
      else if operationName = "query" ∧ resp.statusCode = 204 then
        ([], some (.badAnswer resp.statusCode))
      else if resp.statusCode = 403 ∨ resp.statusCode = 401 then
        ([], some .accessForbidden)
      else
        match r.body with
        | some b =>
            if resp.statusCode = 404 then
              if strIncludes b.errField.details deviceType then
                ([], some (.deviceNotFound entityName))
              else if b.errField.code = some "404" then
                ([], some .attributeNotFound)
              else
                ([], some (.entityGenericError entityName deviceType))
            else ([], some (.entityGenericError entityName deviceType))
        | none => ([], some (.entityGenericError entityName deviceType))
  | none => ([], some (.entityGenericError entityName deviceType))

/-- Source function `generateNGSILDOperationHandler`: classify one exchange
outcome into the alarm actions it performs and the error it reports (`none`
is the success callback).  The cascade follows the source: transport error;
`orionError` body; update success 204; query success 200 with a body; query
204; 401/403; 404 with a body, disambiguated through the broker error field;
and a final generic fallback. -/
def generateNGSILDOperationHandler (operationName entityName deviceType : String)
    (r : NetRaw) : List AlarmAct × Option HErr :=
  match r.error with
  | some e => ([.raise], some (.transport e))
  | none =>
      match r.body, r.response with
      | some b, _ =>
          match b.orionError with
          | some d => ([], some (.badRequest (some d)))
          | none => generateHandlerTail operationName entityName deviceType r
      | none, _ => generateHandlerTail operationName entityName deviceType r

/-- Device configuration consumed by the update and query paths: the entity
type, the per-device timestamp flag (`none` models an absent or undefined
`timestamp` field, which defers to the global configuration) and timezone. -/
structure TypeInfo where
  type : Option String
  timestamp : Option Bool
  timezone : Option String
  deriving Repr, DecidableEq

/-- The effective timestamp policy: the device's own flag when present,
otherwise the configured global flag. -/
def tsEnabled (ti : TypeInfo) (cfg : Cfg) : Bool :=
  match ti.timestamp with
  | some b => b
  | none => cfg.timestamp

/-- The shape of the payload after the update middlewares ran: either an
array of entities (the multientity plugin) or a single entity object. -/
inductive MWJson where
  | arr (es : List V2Entity)
  | single (e : V2Entity)
  deriving Repr, DecidableEq

/-- An entity already carries a timestamp attribute.  Modelled from the spec:
`utils.isTimestampedNgsi2` of `restUtils.js` (not under src/). -/
def isTimestampedE (e : V2Entity) : Bool :=
  e.attrs.any (fun p => p.1 = TIMESTAMP_ATTRIBUTE)

/-- Every entity of an array payload carries a timestamp attribute (array
case of `utils.isTimestampedNgsi2`, modelled from the spec). -/
def isTimestampedArr (es : List V2Entity) : Bool :=
  es.all isTimestampedE

/-- Every timestamp attribute of the entity holds a parseable timestamp.
Modelled from the spec: `utils.IsValidTimestampedNgsi2` of `restUtils.js`
(not under src/). -/
def isValidTimestampedE (e : V2Entity) : Bool :=
  e.attrs.all (fun p => p.1 ≠ TIMESTAMP_ATTRIBUTE ∨ momentIsValidJV p.2.value)

/-- Array case of `utils.IsValidTimestampedNgsi2` (modelled from the spec). -/
def isValidTimestampedArr (es : List V2Entity) : Bool :=
  es.all isValidTimestampedE

/-- Modelled from the spec: `NGSIv2.addTimestamp` (not under src/) appends a
timestamp attribute carrying the current time; the wall clock is passed in as
the `now` parameter (timezone handling elided, as no claim depends on it). -/
def addTimestampE (now : String) (e : V2Entity) : V2Entity :=
  { e with attrs := e.attrs ++ [(TIMESTAMP_ATTRIBUTE, .mk "DateTime" (.str now) .nil none none)] }

/-- The attribute-level purge of the update path: `object_id` and `multi` are
deleted when truthy (an empty-string `object_id` is falsy and survives, as in
the source's `if (json[entity][att].object_id) delete ...`). -/
def purgeAttr (a : V2Attr) : V2Attr :=
  .mk a.type a.value a.metadata
    (match a.objectId with
     | some s => if s ≠ "" then none else some s
     | none => none)
    (match a.multi with
     | some v => if jsTruthy v then none else some v
     | none => none)

/-- Purge every attribute of one entity of the array payload. -/
def purgeEntity (e : V2Entity) : V2Entity :=
  { e with attrs := e.attrs.map (fun p => (p.1, purgeAttr p.2)) }

/-- The purge loop of the update path (source lines 498-522).  For an array
payload the loop strips `object_id` and `multi` from every attribute of every
entity.  For a single-entity (plain object) payload the loop condition
`entity < json.length` compares `0` against `undefined` and is false at once,
so nothing is stripped; the `else` branch of the source is unreachable
because `json` always holds a truthy object.  The model reproduces exactly
that behavior. -/
def purge : MWJson → MWJson
  | .arr es => .arr (es.map purgeEntity)
  | .single e => .single e

/-- An entity with its `id` and `type` keys deleted. -/
def stripIdType (e : V2Entity) : V2Entity :=
  { e with id := none, type := none }

/-- The `_.map(json, formatAsNGSILD)` call of the update path, inside the
try/catch: encode each entity of the array payload, stopping at the first
thrown error. -/
def mapFormat (cfg : Cfg) : List V2Entity → Except Unit (List Fields)
  | [] => .ok []
  | e :: rest => do
      let f ← formatAsNGSILD cfg e
      let r ← mapFormat cfg rest
      .ok (f :: r)

/-- Errors the update path can report through its callback. -/
inductive UpdErr where
  | typeNotFound
  | badRequest
  | badTimestamp
  | badGeocoordinates
  | exch (e : HErr)
  deriving Repr, DecidableEq

/-- Record of one issued update exchange: the entity id spliced into the URL
and the JSON payload placed on the wire. -/
structure Sent where
  entityId : String
  payload : Fields
  deriving Repr, DecidableEq

/-- Result of the per-entity exchange sequence: the exchanges issued in
order, the alarm actions performed, and the first error (if any). -/
structure SeriesOut where
  sent : List Sent
  acts : List AlarmAct
  err : Option HErr
  deriving Repr, DecidableEq

/-- The entity id read from an encoded entity before its `id` key is
deleted (`entityId = entity.id`). -/
def entityIdOf (e : Fields) : String :=
  match e.getKey "id" with
  | some (.str s) => s
  | _ => "undefined"

/-- The wire payload of an encoded entity: the object with its `id` and
`type` keys deleted (they must not appear in a PATCH payload). -/
def wireOf (e : Fields) : Fields :=
  (e.delKey "id").delKey "type"

/-- The `async.forEachSeries` loop of source function `sendUpdateValueNgsiLD`
(lines 539-571): entities are processed strictly in order; an entity whose
payload has at most one key left (only the `@context`) is skipped without an
exchange; otherwise one exchange is issued and classified, a success
continues with the next entity, and a failure stops the sequence and reports
that entity's error.  The transport is passed in as `net`, mapping the
entity id and wire payload of each issued exchange to its raw outcome. -/
def runSeriesLD (deviceType : String) (net : String → Fields → NetRaw) :
    List Fields → SeriesOut
  | [] => ⟨[], [], none⟩
  | e :: rest =>
      let eid := entityIdOf e
      let w := wireOf e
      if w.length ≤ 1 then runSeriesLD deviceType net rest
      else
        let h := generateNGSILDOperationHandler "update" eid deviceType (net eid w)
        match h.2 with
        | none =>
            let out := runSeriesLD deviceType net rest
            ⟨⟨eid, w⟩ :: out.sent, h.1 ++ out.acts, out.err⟩
        | some err => ⟨[⟨eid, w⟩], h.1, some err⟩

/-- Overall result of one update call: the exchanges issued, the alarm
actions performed, and the reported error (`none` is the success callback). -/
structure UpdRun where
  sent : List Sent
  acts : List AlarmAct
  outcome : Option UpdErr
  deriving Repr, DecidableEq

/-- The tail of source function `sendUpdateValueNgsiLD`, from the middleware
result onward: the timestamp block (in the array branch the source computes
`addTimestamp` but then overwrites `json` with `result`, so only the
invalid-timestamp error is observable there), the purge loop, the NGSI-LD
encoding under a try/catch that reports `BadGeocoordinates`, and the
sequential per-entity exchange loop. -/
def sendUpdateStageB (cfg : Cfg) (now entityId : String) (ti : TypeInfo)
    (payload : V2Entity) (result : Option MWJson)
    (net : String → Fields → NetRaw) : UpdRun :=
  let step1 : Except UpdErr MWJson :=
    match result with
    | some (.arr es) =>
        if tsEnabled ti cfg ∧ isTimestampedArr es ∧ ¬ isValidTimestampedArr es then
          .error .badTimestamp
        else .ok (.arr es)
    | some (.single e0) =>
        let e := stripIdType e0
        if tsEnabled ti cfg then
          if ¬ isTimestampedE e then .ok (.single (addTimestampE now e))
          else if ¬ isValidTimestampedE e then .error .badTimestamp
          else .ok (.single e)
        else .ok (.single e)
    | none => .ok (.single (stripIdType payload))
  match step1 with
  | .error err => ⟨[], [], some err⟩
  | .ok json0 =>
      let json1 := purge json0
      let enc : Except Unit (List Fields) :=
        match json1 with
        | .arr es => mapFormat cfg es
        | .single e =>
            (formatAsNGSILD cfg { e with id := some entityId, type := ti.type }).map
              (fun f => [f])
      match enc with
      | .error _ => ⟨[], [], some .badGeocoordinates⟩
      | .ok lds =>
          let s := runSeriesLD (typeOrUndefined ti.type) net lds
          ⟨s.sent, s.acts, s.err.map .exch⟩

/-- An attribute as the caller hands it to the update path (possibly missing
its name or type, which the payload builder rejects). -/
structure InAttr where
  name : Option String
  type : Option String
  value : JV
  metadata : MetaList
  deriving Repr, DecidableEq

/-- Modelled from the spec: `NGSIUtils.getMetaData` (not under src/) merges
static metadata with the measure's metadata; with no static metadata
configured it passes the measure's metadata through, yielding nothing when
there is none. -/
def getMetaDataM (md : MetaList) : MetaList :=
  md

/-- The payload-building loop of source function `sendUpdateValueNgsiLD`
(lines 425-439): every attribute must carry a truthy name and type, otherwise
the call fails with `BadRequest`. -/
def buildPayload : List InAttr → Except Unit (List (String × V2Attr))
  | [] => .ok []
  | a :: rest =>
      match a.name, a.type with
      | some n, some t =>
          if n ≠ "" ∧ t ≠ "" then do
            let r ← buildPayload rest
            .ok ((n, .mk t a.value (getMetaDataM a.metadata) none none) :: r)
          else .error ()
      | _, _ => .error ()

/-- Source function `sendUpdateValueNgsiLD`, start to finish: the
`TypeNotFound` guard (`createRequestObject`, which precedes it in the source,
tolerates an absent `typeInformation` and is modelled as effect-free), the
payload builder with its `BadRequest` guard, and then the stage handled by
`sendUpdateStageB` with the middleware transformation passed in as `mw`
(`NGSIUtils.castJsonNativeAttributes` and `applyMiddlewares` are external to
the visible source; the claims do not depend on how they rewrite values). -/
def sendUpdateValueNgsiLD (cfg : Cfg) (now entityId : String)
    (attributes : List InAttr) (ti : Option TypeInfo)
    (mw : V2Entity → Option MWJson) (net : String → Fields → NetRaw) : UpdRun :=
  match ti with
  | none => ⟨[], [], some .typeNotFound⟩
  | some t =>
      match t.type with
      | none => ⟨[], [], some .typeNotFound⟩
      | some tyStr =>
          if tyStr = "" then ⟨[], [], some .typeNotFound⟩
          else
            match buildPayload attributes with
            | .error _ => ⟨[], [], some .badRequest⟩
            | .ok pattrs =>
                let payload : V2Entity := ⟨some entityId, some tyStr, pattrs⟩
                sendUpdateStageB cfg now entityId t payload (mw payload) net

/-- How far the query path gets before issuing its exchange: building the
URL on line 364 reads `typeInformation.type`, so an absent `typeInformation`
throws a `TypeError` (`crash`) before the `TypeNotFound` guard can run; a
present `typeInformation` without a truthy `type` reaches the guard. -/
inductive QueryStart where
  | crash
  | typeNotFound
  | proceed (url : String)
  deriving Repr, DecidableEq

/-- Comma-joined attribute list for the query URL. -/
def joinComma : List String → String
  | [] => ""
  | [a] => a
  | a :: rest => a ++ "," ++ joinComma rest

/-- The entry of source function `sendQueryValueNgsiLD`: URL construction
(which dereferences `typeInformation`), then the `TypeNotFound` guard. -/
def sendQueryValueStart (entityName : String) (attributes : List String)
    (ti : Option TypeInfo) : QueryStart :=
  match ti with
  | none => .crash
  | some t =>
      let url := "/ngsi-ld/v1/entities/urn:ngsi-ld:" ++ typeOrUndefined t.type ++
        ":" ++ entityName
      let url := if attributes ≠ [] then url ++ "?attrs=" ++ joinComma attributes else url
      match t.type with
      | none => .typeNotFound
      | some s => if s = "" then .typeNotFound else .proceed url

/-- Outcome of the query path. -/
inductive QueryOutcome where
  | crashed
  | typeNotFound
  | failed (e : HErr)
  | queried
  deriving Repr, DecidableEq

/-- Overall result of one query call: the GET requests issued, the alarm
actions performed, and the classified outcome. -/
structure QueryRun where
  requests : List String
  acts : List AlarmAct
  outcome : QueryOutcome
  deriving Repr, DecidableEq

/-- Source function `sendQueryValueNgsiLD`: the entry checks, then a single
GET exchange classified by the operation handler (the query middlewares that
post-process a successful body are external and effect-free for the claims). -/
def sendQueryValueNgsiLD (entityName : String) (attributes : List String)
    (ti : Option TypeInfo) (net : String → NetRaw) : QueryRun :=
  match sendQueryValueStart entityName attributes ti with
  | .crash => ⟨[], [], .crashed⟩
  | .typeNotFound => ⟨[], [], .typeNotFound⟩
  | .proceed url =>
      let h := generateNGSILDOperationHandler "query" entityName
        (typeOrUndefined (ti.bind TypeInfo.type)) (net url)
      match h.2 with
      | none => ⟨[url], h.1, .queried⟩
      | some e => ⟨[url], h.1, .failed e⟩

/-- The type tags the conversion switch recognizes (lower-cased). -/
def recognizedTags : List String :=
  ["property", "string", "boolean", "float", "integer", "number",
   "datetime", "date", "time", "geoproperty", "point", "geo:point",
   "linestring", "geo:linestring", "polygon", "geo:polygon",
   "multipoint", "geo:multipoint", "multilinestring", "geo:multilinestring",
   "multipolygon", "geo:multipolygon", "relationship"]

/-- The geometry tags whose coordinate lists pass through `getLngLats` and
are therefore validated (the `multilinestring` and `multipolygon` families
forward the raw value instead). -/
def validatedGeoTags : List String :=
  ["point", "geo:point", "linestring", "geo:linestring",
   "polygon", "geo:polygon", "multipoint", "geo:multipoint"]

/-- The `observedAt` value the timestamp-metadata branch stores: the fixed
default when the timestamp equals the sentinel default or does not parse,
otherwise the UTC-normalized ISO-8601 rendering. -/
def observedAtRender (v : JV) : JV :=
  if jsStrictEq v ATTRIBUTE_DEFAULT || !(momentIsValidJV v) then .str DATETIME_DEFAULT
  else momentToISO v

/-- The last metadata entry whose key writes the `observedAt` field of the
converted attribute: a timestamp entry writes it through the timestamp
branch, and an entry literally named `observedAt` writes it through the
default branch; the last writer wins. -/
def lastTsSetter : MetaList → Option (String × V2Attr)
  | .nil => none
  | .cons k a rest =>
      match lastTsSetter rest with
      | some p => some p
      | none =>
          if k = TIMESTAMP_ATTRIBUTE ∨ k = "observedAt" then some (k, a) else none

mutual
/-- No metadata entry of the attribute, at any depth, uses the given key. -/
def attrMetaFree (k : String) : V2Attr → Bool
  | .mk _ _ ml _ _ => metaListFree k ml
/-- No entry of the metadata list, at any depth, uses the given key. -/
def metaListFree (k : String) : MetaList → Bool
  | .nil => true
  | .cons key a rest => !(key = k : Bool) && attrMetaFree k a && metaListFree k rest
end

/-- Every attribute of the entity is free of `object_id`-keyed metadata. -/
def entityClean (e : V2Entity) : Bool :=
  e.attrs.all (fun p => attrMetaFree "object_id" p.2)

/-- Cleanliness of the middleware result an update run works on (the single
or array payload, or the original payload when the middlewares return
nothing). -/
def mwClean (result : Option MWJson) (payload : V2Entity) : Bool :=
  match result with
  | some (.arr es) => es.all entityClean
  | some (.single e) => entityClean e
  | none => entityClean payload

/-- The exchange record an encoded entity produces when it is sent. -/
def sentOf (e : Fields) : Sent :=
  ⟨entityIdOf e, wireOf e⟩

/-- A key/value pair a wire payload may contain: the context, the `id` and
`type` keys (deleted before sending), or an attribute object free of the
internal disambiguation key. -/
def GoodKV (k : String) (v : JV) : Prop :=
  k = "@context" ∨ k = "id" ∨ k = "type" ∨
    ∃ fs, v = .obj fs ∧ fs.hasKey "object_id" = false

/-- Structural induction for `Fields` alone (the mutual recursor of the value
types has several motives, so the one-type principle is stated directly). -/
theorem fieldsInd {motive : Fields → Prop} (nil : motive .nil)
    (cons : ∀ k v t, motive t → motive (.cons k v t)) : ∀ F, motive F
  | .nil => nil
  | .cons k v t => cons k v t (fieldsInd nil cons t)

/-- Structural induction for `JVs` alone. -/
theorem jvsInd {motive : JVs → Prop} (nil : motive .nil)
    (cons : ∀ v t, motive t → motive (.cons v t)) : ∀ es, motive es
  | .nil => nil
  | .cons v t => cons v t (jvsInd nil cons t)

theorem Fields.getKey_set_self (F : Fields) (k : String) (v : JV) :
    (F.set k v).getKey k = some v := by
  induction F using fieldsInd with
  | nil => simp [Fields.set, Fields.getKey]
  | cons k0 v0 t ih =>
      by_cases h : k0 = k
      · simp [Fields.set, Fields.getKey, h]
      · simp [Fields.set, Fields.getKey, h, ih]

theorem Fields.getKey_set_ne (F : Fields) (k0 k : String) (v : JV) (h : k0 ≠ k) :
    (F.set k0 v).getKey k = F.getKey k := by
  induction F using fieldsInd with
  | nil => simp [Fields.set, Fields.getKey, h]
  | cons k1 v1 t ih =>
      by_cases h1 : k1 = k0
      · subst h1
        simp [Fields.set, Fields.getKey, h]
      · simp only [Fields.set, if_neg h1, Fields.getKey]
        by_cases h2 : k1 = k
        · simp [h2]
        · simp [h2, ih]

theorem Fields.getKey_del_ne (F : Fields) (k0 k : String) (h : k0 ≠ k) :
    (F.delKey k0).getKey k = F.getKey k := by
  induction F using fieldsInd with
  | nil => simp [Fields.delKey]
  | cons k1 v1 t ih =>
      by_cases h1 : k1 = k0
      · subst h1
        simp [Fields.delKey, Fields.getKey, h, ih]
      · simp only [Fields.delKey, if_neg h1, Fields.getKey]
        by_cases h2 : k1 = k
        · simp [h2]
        · simp [h2, ih]

theorem Fields.hasKey_del_self (F : Fields) (k : String) :
    (F.delKey k).hasKey k = false := by
  induction F using fieldsInd with
  | nil => simp [Fields.delKey, Fields.hasKey, Fields.getKey]
  | cons k1 v1 t ih =>
      by_cases h1 : k1 = k
      · simp [Fields.delKey, h1, ih]
      · simp [Fields.delKey, h1, Fields.hasKey, Fields.getKey, ih] at ih ⊢
        exact ih

theorem Fields.mem_set (F : Fields) (k0 : String) (v0 : JV) (p : String × JV)
    (h : p ∈ (F.set k0 v0).toList) : p = (k0, v0) ∨ p ∈ F.toList := by
  induction F using fieldsInd with
  | nil => simpa [Fields.set, Fields.toList] using h
  | cons k1 v1 t ih =>
      by_cases h1 : k1 = k0
      · subst h1
        simp only [Fields.set, if_pos rfl, Fields.toList, List.mem_cons] at h
        rcases h with h | h
        · exact Or.inl h
        · exact Or.inr (by simp [Fields.toList, h])
      · simp only [Fields.set, if_neg h1, Fields.toList, List.mem_cons] at h
        rcases h with h | h
        · exact Or.inr (by simp [Fields.toList, h])
        · rcases ih h with h2 | h2
          · exact Or.inl h2
          · exact Or.inr (by simp [Fields.toList, h2])

theorem Fields.mem_del (F : Fields) (k0 : String) (p : String × JV)
    (h : p ∈ (F.delKey k0).toList) : p ∈ F.toList ∧ p.1 ≠ k0 := by
  induction F using fieldsInd with
  | nil => simp [Fields.delKey, Fields.toList] at h
  | cons k1 v1 t ih =>
      by_cases h1 : k1 = k0
      · subst h1
        simp only [Fields.delKey, if_pos rfl] at h
        rcases ih h with ⟨h2, h3⟩
        exact ⟨by simp [Fields.toList, h2], h3⟩
      · simp only [Fields.delKey, if_neg h1, Fields.toList, List.mem_cons] at h
        rcases h with h | h
        · refine ⟨by simp [Fields.toList, h], ?_⟩
          rw [h]
          exact h1
        · rcases ih h with ⟨h2, h3⟩
          exact ⟨by simp [Fields.toList, h2], h3⟩

theorem Fields.mem_hasKey (F : Fields) (k : String) (v : JV)
    (h : (k, v) ∈ F.toList) : F.hasKey k = true := by
  induction F using fieldsInd with
  | nil => simp [Fields.toList] at h
  | cons k1 v1 t ih =>
      simp only [Fields.toList, List.mem_cons] at h
      rcases h with h | h
      · simp only [Prod.mk.injEq] at h
        rcases h with ⟨rfl, rfl⟩
        simp [Fields.hasKey, Fields.getKey]
      · by_cases h1 : k1 = k
        · simp [Fields.hasKey, Fields.getKey, h1]
        · simpa [Fields.hasKey, Fields.getKey, h1] using ih h

theorem convertCore_default (t : String) (v : JV) (oid : Option String) (mu : Option JV)
    (h : jsToLower t ∉ recognizedTags) :
    convertCore (.mk t v .nil oid mu) =
      .ok (.cons "type" (.str "Property") (.cons "value"
        (.obj (.cons "@type" (.str t) (.cons "@value" v .nil))) .nil)) := by
  unfold convertCore
  split
  all_goals try rfl
  all_goals (exfalso; apply h; rename_i heq; rw [show jsToLower t = _ from heq]; decide)

/-- C3 counterexample: for the attribute `(point, "40.4,-3.7")` the converted
GeoProperty's coordinates are `[40.4, -3.7]` (as rationals,
`[mkRat 404 10, mkRat (-37) 10]`), which is not the pair `[-3.7, 40.4]`
claimed: the conversion performs no latitude/longitude swap. -/
theorem c3_counterexample :
    convertNGSIv2ToLD (.mk "point" (.str "40.4,-3.7") .nil none none) =
      .ok (.cons "type" (.str "GeoProperty") (.cons "value"
        (.obj (.cons "type" (.str "Point") (.cons "coordinates"
          (.arr (.cons (.num (mkRat 404 10)) (.cons (.num (mkRat (-37) 10)) .nil))) .nil))) .nil)) ∧
    JVs.cons (.num (mkRat 404 10)) (.cons (.num (mkRat (-37) 10)) .nil) ≠
      JVs.cons (.num (mkRat (-37) 10)) (.cons (.num (mkRat 404 10)) .nil) := by
  constructor
  · decide
  · decide

/-- C3 (corrected): for every attribute declared `point` or `geo:point` (no
metadata) whose value is the string `"40.4,-3.7"`, the linked-data conversion
yields a GeoProperty whose coordinates are the pair `[40.4, -3.7]` — the
input order is preserved; the code performs no swap to GeoJSON
longitude-first order. -/
theorem c3_point_coordinates_keep_input_order (t : String)
    (ht : t = "point" ∨ t = "geo:point") (oid : Option String) (mu : Option JV) :
    convertNGSIv2ToLD (.mk t (.str "40.4,-3.7") .nil oid mu) =
      .ok (.cons "type" (.str "GeoProperty") (.cons "value"
        (.obj (.cons "type" (.str "Point") (.cons "coordinates"
          (.arr (.cons (.num (mkRat 404 10)) (.cons (.num (mkRat (-37) 10)) .nil))) .nil))) .nil)) := by
  rcases ht with rfl | rfl
  · rfl
  · rfl

/-- C3 witness: the theorem applied to the tag `point`. -/
theorem c3_witness :
    (("point" : String) = "point" ∨ ("point" : String) = "geo:point") ∧
    convertNGSIv2ToLD (.mk "point" (.str "40.4,-3.7") .nil none none) =
      .ok (.cons "type" (.str "GeoProperty") (.cons "value"
        (.obj (.cons "type" (.str "Point") (.cons "coordinates"
          (.arr (.cons (.num (mkRat 404 10)) (.cons (.num (mkRat (-37) 10)) .nil))) .nil))) .nil)) :=
  ⟨Or.inl rfl, c3_point_coordinates_keep_input_order "point" (Or.inl rfl) none none⟩

/-- C7 (confirmed): for every attribute of declared numeric type (`integer`,
`float`, `number`, no metadata), casting the string `"0"` yields the number
`0`, and casting any value on which numeric parsing fails yields the default
`0` (never a not-a-number result). -/
theorem c7_numeric_cast_zero_and_default (t : String)
    (ht : t = "integer" ∨ t = "float" ∨ t = "number")
    (oid : Option String) (mu : Option JV) :
    convertNGSIv2ToLD (.mk t (.str "0") .nil oid mu) =
      .ok (.cons "type" (.str "Property") (.cons "value" (.num 0) .nil)) ∧
    (∀ v : JV, jsParseFloat v = .nan → jsParseInt v = .nan →
      convertNGSIv2ToLD (.mk t v .nil oid mu) =
        .ok (.cons "type" (.str "Property") (.cons "value" (.num 0) .nil))) := by
  rcases ht with rfl | rfl | rfl
  · refine ⟨rfl, ?_⟩
    intro v h1 h2
    rw [show convertNGSIv2ToLD (.mk "integer" v .nil oid mu) =
      .ok (.cons "type" (.str "Property")
        (.cons "value" (valueOfOrDefault (jsParseInt v) (.num 0)) .nil)) from rfl, h2]
    rfl
  · refine ⟨rfl, ?_⟩
    intro v h1 h2
    rw [show convertNGSIv2ToLD (.mk "float" v .nil oid mu) =
      .ok (.cons "type" (.str "Property")
        (.cons "value" (valueOfOrDefault (jsParseFloat v) (.num 0)) .nil)) from rfl, h1]
    rfl
  · refine ⟨rfl, ?_⟩
    intro v h1 h2
    by_cases hf : isFloat v
    · rw [show convertNGSIv2ToLD (.mk "number" v .nil oid mu) =
        Except.bind (if isFloat v then
            Except.ok (Fields.cons "type" (.str "Property")
              (Fields.cons "value" (valueOfOrDefault (jsParseFloat v) (.num 0)) .nil))
          else
            Except.ok (Fields.cons "type" (.str "Property")
              (Fields.cons "value" (valueOfOrDefault (jsParseInt v) (.num 0)) .nil)))
          Except.pure from rfl, if_pos hf, h1]
      rfl
    · rw [show convertNGSIv2ToLD (.mk "number" v .nil oid mu) =
        Except.bind (if isFloat v then
            Except.ok (Fields.cons "type" (.str "Property")
              (Fields.cons "value" (valueOfOrDefault (jsParseFloat v) (.num 0)) .nil))
          else
            Except.ok (Fields.cons "type" (.str "Property")
              (Fields.cons "value" (valueOfOrDefault (jsParseInt v) (.num 0)) .nil)))
          Except.pure from rfl, if_neg hf, h2]
      rfl

/-- C7 witness: the theorem applied to `integer`, with the failing parse
instantiated at the string `"abc"`. -/
theorem c7_witness :
    (("integer" : String) = "integer" ∨ ("integer" : String) = "float" ∨
      ("integer" : String) = "number") ∧
    convertNGSIv2ToLD (.mk "integer" (.str "0") .nil none none) =
      .ok (.cons "type" (.str "Property") (.cons "value" (.num 0) .nil)) ∧
    convertNGSIv2ToLD (.mk "integer" (.str "abc") .nil none none) =
      .ok (.cons "type" (.str "Property") (.cons "value" (.num 0) .nil)) := by
  refine ⟨Or.inl rfl, ?_, ?_⟩
  · exact (c7_numeric_cast_zero_and_default "integer" (Or.inl rfl) none none).1
  · exact (c7_numeric_cast_zero_and_default "integer" (Or.inl rfl) none none).2
      (.str "abc") (by decide) (by decide)

/-- C9 counterexample: an attribute whose declared type `custom` is
unrecognized but which carries a geometry-typed metadata entry with malformed
coordinates makes the conversion raise, so the conversion does not "never
raise" for unrecognized types. -/
theorem c9_counterexample :
    jsToLower "custom" ∉ recognizedTags ∧
    convertNGSIv2ToLD (.mk "custom" (.str "v")
      (.cons "m" (.mk "point" (.str "1,2,3") .nil none none) .nil) none none) =
      .error () := by
  constructor
  · decide
  · decide

/-- C9 (corrected): for every attribute whose declared type matches none of
the recognized type tags and which carries no metadata, the conversion does
not raise and returns a Property whose value is the pass-through wrapper
tagging the declared type and preserving the raw value.  (With metadata the
conversion can still raise, because metadata entries are converted
recursively — see the counterexample.) -/
theorem c9_unrecognized_type_passthrough (t : String) (v : JV)
    (oid : Option String) (mu : Option JV) (h : jsToLower t ∉ recognizedTags) :
    convertNGSIv2ToLD (.mk t v .nil oid mu) =
      .ok (.cons "type" (.str "Property") (.cons "value"
        (.obj (.cons "@type" (.str t) (.cons "@value" v .nil))) .nil)) := by
  have hc := convertCore_default t v oid mu h
  change Except.bind (convertCore (.mk t v .nil oid mu)) _ = _
  rw [hc]
  rfl

/-- C9 witness: the theorem applied to the unrecognized tag `custom`. -/
theorem c9_witness :
    jsToLower "custom" ∉ recognizedTags ∧
    convertNGSIv2ToLD (.mk "custom" (.str "v") .nil none none) =
      .ok (.cons "type" (.str "Property") (.cons "value"
        (.obj (.cons "@type" (.str "custom") (.cons "@value" (.str "v") .nil))) .nil)) :=
  ⟨by decide, c9_unrecognized_type_passthrough "custom" (.str "v") none none (by decide)⟩

/-- C4 counterexample: an update response with success status 204 whose body
carries a structured broker error (`orionError`) is classified as
`BadRequest` and performs no alarm action, so it does not release the alarm
as claimed. -/
theorem c4_counterexample :
    generateNGSILDOperationHandler "update" "e" "T"
      ⟨none, some ⟨204⟩, some ⟨some "oops", ⟨none, ""⟩⟩⟩ =
      ([], some (.badRequest (some "oops"))) ∧
    ([] : List AlarmAct) ≠ [AlarmAct.release] := by
  constructor
  · decide
  · decide

/-- C4 (corrected): a transport-level error raises the broker alarm and
returns the transport error; an update response with success status 204 and a
query response with success status 200 and a body — in both cases with no
structured broker error (`orionError`) in the body — release the alarm; and a
single successful exchange releases the alarm regardless of the alarm actions
that preceded it. -/
theorem c4_alarm_gate_classification :
    (∀ (op n t e : String) (resp : Option HResp) (body : Option HBody),
      generateNGSILDOperationHandler op n t ⟨some e, resp, body⟩ =
        ([.raise], some (.transport e))) ∧
    (∀ (n t : String) (body : Option HBody),
      (∀ b, body = some b → b.orionError = none) →
      generateNGSILDOperationHandler "update" n t ⟨none, some ⟨204⟩, body⟩ =
        ([.release], none)) ∧
    (∀ (n t : String) (b : HBody), b.orionError = none →
      generateNGSILDOperationHandler "query" n t ⟨none, some ⟨200⟩, some b⟩ =
        ([.release], none)) ∧
    (∀ (s : Bool) (acts : List AlarmAct) (n t : String),
      runAlarm s (acts ++
        (generateNGSILDOperationHandler "update" n t ⟨none, some ⟨204⟩, none⟩).1) = false) := by
  refine ⟨?_, ?_, ?_, ?_⟩
  · intro op n t e resp body
    rfl
  · intro n t body h
    match body with
    | none => rfl
    | some b =>
        rcases b with ⟨oe, ef⟩
        have hb := h ⟨oe, ef⟩ rfl
        simp only at hb
        subst hb
        rfl
  · intro n t b h
    rcases b with ⟨oe, ef⟩
    simp only at h
    subst h
    rfl
  · intro s acts n t
    rw [show (generateNGSILDOperationHandler "update" n t ⟨none, some ⟨204⟩, none⟩).1 =
      [AlarmAct.release] from rfl]
    simp [runAlarm, List.foldl_append, applyAlarm]

/-- C4 witness: the theorem applied to a transport error, a clean update 204,
a clean query 200 and an alarm history with two prior raises. -/
theorem c4_witness :
    generateNGSILDOperationHandler "update" "e" "T" ⟨some "boom", none, none⟩ =
      ([.raise], some (.transport "boom")) ∧
    generateNGSILDOperationHandler "update" "e" "T" ⟨none, some ⟨204⟩, none⟩ =
      ([.release], none) ∧
    generateNGSILDOperationHandler "query" "e" "T" ⟨none, some ⟨200⟩, some ⟨none, ⟨none, ""⟩⟩⟩ =
      ([.release], none) ∧
    runAlarm true ([.raise, .raise] ++
      (generateNGSILDOperationHandler "update" "e" "T" ⟨none, some ⟨204⟩, none⟩).1) = false := by
  refine ⟨?_, ?_, ?_, ?_⟩
  · exact c4_alarm_gate_classification.1 "update" "e" "T" "boom" none none
  · exact c4_alarm_gate_classification.2.1 "e" "T" none (fun b hb => nomatch hb)
  · exact c4_alarm_gate_classification.2.2.1 "e" "T" ⟨none, ⟨none, ""⟩⟩ rfl
  · exact c4_alarm_gate_classification.2.2.2 true [.raise, .raise] "e" "T"

/-- C5 counterexample: a 404 response whose body carries a structured broker
error (`orionError`) is classified as `BadRequest`, which is none of the
three outcomes the claim allows for a 404 with a body. -/
theorem c5_counterexample :
    generateNGSILDOperationHandler "update" "e" "T"
      ⟨none, some ⟨404⟩, some ⟨some "oops", ⟨some "404", "detail"⟩⟩⟩ =
      ([], some (.badRequest (some "oops"))) := by
  decide

/-- C5 (corrected): for every exchange (any operation) whose response has
status 404 and a body with no structured broker error (`orionError`), the
classified outcome is `DeviceNotFound` when the broker error detail contains
the device type, otherwise `AttributeNotFound` when the broker error code
equals `'404'`, otherwise `EntityGenericError`. -/
theorem c5_status_404_classification (op n t : String) (b : HBody)
    (hoe : b.orionError = none) :
    generateNGSILDOperationHandler op n t ⟨none, some ⟨404⟩, some b⟩ =
      ([], some (if strIncludes b.errField.details t then .deviceNotFound n
        else if b.errField.code = some "404" then .attributeNotFound
        else .entityGenericError n t)) := by
  rcases b with ⟨oe, ef⟩
  simp only at hoe
  subst hoe
  change generateHandlerTail op n t ⟨none, some ⟨404⟩, some ⟨none, ef⟩⟩ = _
  by_cases hd : strIncludes ef.details t
  · simp [generateHandlerTail, hd]
  · by_cases hc : ef.code = some "404"
    · simp [generateHandlerTail, hd, hc]
    · simp [generateHandlerTail, hd, hc]

/-- C5 witness: the theorem applied to the three body shapes, one per
outcome. -/
theorem c5_witness :
    generateNGSILDOperationHandler "update" "e" "T"
      ⟨none, some ⟨404⟩, some ⟨none, ⟨none, "entity of type T not found"⟩⟩⟩ =
      ([], some (.deviceNotFound "e")) ∧
    generateNGSILDOperationHandler "query" "e" "T"
      ⟨none, some ⟨404⟩, some ⟨none, ⟨some "404", "no such attribute"⟩⟩⟩ =
      ([], some .attributeNotFound) ∧
    generateNGSILDOperationHandler "update" "e" "T"
      ⟨none, some ⟨404⟩, some ⟨none, ⟨some "500", "other"⟩⟩⟩ =
      ([], some (.entityGenericError "e" "T")) := by
  refine ⟨?_, ?_, ?_⟩
  · exact (c5_status_404_classification "update" "e" "T"
      ⟨none, ⟨none, "entity of type T not found"⟩⟩ rfl).trans (by decide)
  · exact (c5_status_404_classification "query" "e" "T"
      ⟨none, ⟨some "404", "no such attribute"⟩⟩ rfl).trans (by decide)
  · exact (c5_status_404_classification "update" "e" "T"
      ⟨none, ⟨some "500", "other"⟩⟩ rfl).trans (by decide)

theorem runSeries_all_ok (d : String) (net : String → Fields → NetRaw)
    (es : List Fields)
    (h : ∀ e ∈ es, 1 < (wireOf e).length ∧
      (generateNGSILDOperationHandler "update" (entityIdOf e) d
        (net (entityIdOf e) (wireOf e))).2 = none) :
    (runSeriesLD d net es).sent = es.map sentOf ∧ (runSeriesLD d net es).err = none := by
  induction es with
  | nil => exact ⟨rfl, rfl⟩
  | cons e rest ih =>
      obtain ⟨hlen, hsucc⟩ := h e (by simp)
      obtain ⟨ih1, ih2⟩ := ih (fun x hx => h x (by simp [hx]))
      simp only [runSeriesLD]
      rw [if_neg (by omega)]
      rw [hsucc]
      simp only [List.map_cons]
      exact ⟨by rw [← ih1]; rfl, by rw [← ih2]⟩

theorem runSeries_abort (d : String) (net : String → Fields → NetRaw)
    (pre : List Fields) (ek : Fields) (post : List Fields) (errk : HErr)
    (hpre : ∀ e ∈ pre, 1 < (wireOf e).length ∧
      (generateNGSILDOperationHandler "update" (entityIdOf e) d
        (net (entityIdOf e) (wireOf e))).2 = none)
    (hklen : 1 < (wireOf ek).length)
    (hkerr : (generateNGSILDOperationHandler "update" (entityIdOf ek) d
      (net (entityIdOf ek) (wireOf ek))).2 = some errk) :
    (runSeriesLD d net (pre ++ ek :: post)).sent = pre.map sentOf ++ [sentOf ek] ∧
    (runSeriesLD d net (pre ++ ek :: post)).err = some errk := by
  induction pre with
  | nil =>
      simp only [List.nil_append, runSeriesLD]
      rw [if_neg (by omega)]
      rw [hkerr]
      exact ⟨rfl, rfl⟩
  | cons e pre2 ih =>
      obtain ⟨hlen, hsucc⟩ := hpre e (by simp)
      obtain ⟨ih1, ih2⟩ := ih (fun x hx => hpre x (by simp [hx]))
      simp only [List.cons_append, runSeriesLD]
      rw [if_neg (by omega)]
      rw [hsucc]
      simp only [List.map_cons, List.cons_append]
      exact ⟨by rw [← ih1]; rfl, by rw [← ih2]; rfl⟩

/-- C1 (confirmed): the per-entity exchanges of an update run are issued
strictly in order.  First part: when every (non-empty) encoded entity's
exchange succeeds, the run issues exactly one exchange per entity, in list
order, and reports success.  Second part: when the entities before position k
succeed and entity k's exchange fails, the run issues exactly the exchanges
for entities 1..k (already-applied entities are never revisited or rolled
back — the issued list keeps them), no exchange is issued for any entity
after k, and the run reports entity k's error. -/
theorem c1_sequential_exchanges :
    (∀ (d : String) (net : String → Fields → NetRaw) (es : List Fields),
      (∀ e ∈ es, 1 < (wireOf e).length ∧
        (generateNGSILDOperationHandler "update" (entityIdOf e) d
          (net (entityIdOf e) (wireOf e))).2 = none) →
      (runSeriesLD d net es).sent = es.map sentOf ∧
      (runSeriesLD d net es).err = none) ∧
    (∀ (d : String) (net : String → Fields → NetRaw) (pre : List Fields)
      (ek : Fields) (post : List Fields) (errk : HErr),
      (∀ e ∈ pre, 1 < (wireOf e).length ∧
        (generateNGSILDOperationHandler "update" (entityIdOf e) d
          (net (entityIdOf e) (wireOf e))).2 = none) →
      1 < (wireOf ek).length →
      (generateNGSILDOperationHandler "update" (entityIdOf ek) d
        (net (entityIdOf ek) (wireOf ek))).2 = some errk →
      (runSeriesLD d net (pre ++ ek :: post)).sent = pre.map sentOf ++ [sentOf ek] ∧
      (runSeriesLD d net (pre ++ ek :: post)).err = some errk) :=
  ⟨fun d net es h => runSeries_all_ok d net es h,
   fun d net pre ek post errk h1 h2 h3 => runSeries_abort d net pre ek post errk h1 h2 h3⟩

/-- C1 witness: three concrete entities where the transport fails the second
exchange; the first entity's exchange is issued and succeeds, the second is
issued and fails, the third is never attempted, and the run returns the
second entity's (transport) error. -/
theorem c1_witness :
    (runSeriesLD "T"
      (fun eid _ => if eid = "u2" then ⟨some "boom", none, none⟩ else ⟨none, some ⟨204⟩, none⟩)
      [Fields.cons "@context" (.arr .nil) (.cons "id" (.str "u1")
         (.cons "a" (.obj (.cons "type" (.str "Property") (.cons "value" (.num 1) .nil))) .nil)),
       Fields.cons "@context" (.arr .nil) (.cons "id" (.str "u2")
         (.cons "b" (.obj (.cons "type" (.str "Property") (.cons "value" (.num 2) .nil))) .nil)),
       Fields.cons "@context" (.arr .nil) (.cons "id" (.str "u3")
         (.cons "c" (.obj (.cons "type" (.str "Property") (.cons "value" (.num 3) .nil))) .nil))]).sent =
      [⟨"u1", Fields.cons "@context" (.arr .nil)
          (.cons "a" (.obj (.cons "type" (.str "Property") (.cons "value" (.num 1) .nil))) .nil)⟩,
       ⟨"u2", Fields.cons "@context" (.arr .nil)
          (.cons "b" (.obj (.cons "type" (.str "Property") (.cons "value" (.num 2) .nil))) .nil)⟩] ∧
    (runSeriesLD "T"
      (fun eid _ => if eid = "u2" then ⟨some "boom", none, none⟩ else ⟨none, some ⟨204⟩, none⟩)
      [Fields.cons "@context" (.arr .nil) (.cons "id" (.str "u1")
         (.cons "a" (.obj (.cons "type" (.str "Property") (.cons "value" (.num 1) .nil))) .nil)),
       Fields.cons "@context" (.arr .nil) (.cons "id" (.str "u2")
         (.cons "b" (.obj (.cons "type" (.str "Property") (.cons "value" (.num 2) .nil))) .nil)),
       Fields.cons "@context" (.arr .nil) (.cons "id" (.str "u3")
         (.cons "c" (.obj (.cons "type" (.str "Property") (.cons "value" (.num 3) .nil))) .nil))]).err =
      some (.transport "boom") := by
  have h := c1_sequential_exchanges.2 "T"
    (fun eid _ => if eid = "u2" then ⟨some "boom", none, none⟩ else ⟨none, some ⟨204⟩, none⟩)
    [Fields.cons "@context" (.arr .nil) (.cons "id" (.str "u1")
       (.cons "a" (.obj (.cons "type" (.str "Property") (.cons "value" (.num 1) .nil))) .nil))]
    (Fields.cons "@context" (.arr .nil) (.cons "id" (.str "u2")
       (.cons "b" (.obj (.cons "type" (.str "Property") (.cons "value" (.num 2) .nil))) .nil)))
    [Fields.cons "@context" (.arr .nil) (.cons "id" (.str "u3")
       (.cons "c" (.obj (.cons "type" (.str "Property") (.cons "value" (.num 3) .nil))) .nil))]
    (.transport "boom")
    (by
      intro e he
      simp only [List.mem_singleton] at he
      subst he
      exact ⟨by decide, by decide⟩)
    (by decide) (by decide)
  exact ⟨h.1.trans (by decide), h.2⟩

/-- C10 counterexample: a query call with an absent `typeInformation` throws
a `TypeError` while building the URL (modelled as `crashed`), before the
`TypeNotFound` guard can run, so it does not fail with `TypeNotFound` as
claimed. -/
theorem c10_counterexample :
    sendQueryValueNgsiLD "dev" [] none
      (fun _ => ⟨none, some ⟨200⟩, some ⟨none, ⟨none, ""⟩⟩⟩) = ⟨[], [], .crashed⟩ ∧
    QueryOutcome.crashed ≠ QueryOutcome.typeNotFound := by
  constructor
  · decide
  · decide

/-- C10 (corrected): an update call whose `typeInformation` is absent or has
no (truthy) `type` fails with `TypeNotFound`, issuing no exchange and no
alarm action; a query call whose `typeInformation` is present but has no
(truthy) `type` fails with `TypeNotFound`, likewise issuing nothing; a query
call whose `typeInformation` is absent instead throws while building the URL
(before its guard), still issuing no exchange and no alarm action. -/
theorem c10_missing_type_guard :
    (∀ (cfg : Cfg) (now entityId : String) (attributes : List InAttr)
      (ti : Option TypeInfo) (mw : V2Entity → Option MWJson)
      (net : String → Fields → NetRaw),
      (ti = none ∨ ∃ t, ti = some t ∧ (t.type = none ∨ t.type = some "")) →
      sendUpdateValueNgsiLD cfg now entityId attributes ti mw net =
        ⟨[], [], some .typeNotFound⟩) ∧
    (∀ (entityName : String) (attributes : List String) (t : TypeInfo)
      (net : String → NetRaw),
      (t.type = none ∨ t.type = some "") →
      sendQueryValueNgsiLD entityName attributes (some t) net = ⟨[], [], .typeNotFound⟩) ∧
    (∀ (entityName : String) (attributes : List String) (net : String → NetRaw),
      sendQueryValueNgsiLD entityName attributes none net = ⟨[], [], .crashed⟩) := by
  refine ⟨?_, ?_, ?_⟩
  · intro cfg now entityId attributes ti mw net h
    rcases h with rfl | ⟨t, rfl, h⟩
    · rfl
    · rcases t with ⟨ty, ts, tz⟩
      rcases h with h | h
      · simp only at h
        subst h
        rfl
      · simp only at h
        subst h
        rfl
  · intro entityName attributes t net h
    rcases t with ⟨ty, ts, tz⟩
    rcases h with h | h
    · simp only at h
      subst h
      simp [sendQueryValueNgsiLD, sendQueryValueStart]
    · simp only at h
      subst h
      simp [sendQueryValueNgsiLD, sendQueryValueStart]
  · intro entityName attributes net
    rfl

/-- C10 witness: the theorem applied to an absent `typeInformation` for the
update path, a typeless `typeInformation` for the query path, and an absent
`typeInformation` for the query path. -/
theorem c10_witness :
    sendUpdateValueNgsiLD ⟨"ctx", false⟩ "now" "s1" [] none (fun _ => none)
      (fun _ _ => ⟨none, some ⟨204⟩, none⟩) = ⟨[], [], some .typeNotFound⟩ ∧
    sendQueryValueNgsiLD "dev" [] (some ⟨none, none, none⟩)
      (fun _ => ⟨none, some ⟨200⟩, some ⟨none, ⟨none, ""⟩⟩⟩) = ⟨[], [], .typeNotFound⟩ ∧
    sendQueryValueNgsiLD "dev" [] none
      (fun _ => ⟨none, some ⟨200⟩, some ⟨none, ⟨none, ""⟩⟩⟩) = ⟨[], [], .crashed⟩ := by
  refine ⟨?_, ?_, ?_⟩
  · exact c10_missing_type_guard.1 ⟨"ctx", false⟩ "now" "s1" [] none (fun _ => none)
      (fun _ _ => ⟨none, some ⟨204⟩, none⟩) (Or.inl rfl)
  · exact c10_missing_type_guard.2.1 "dev" [] ⟨none, none, none⟩
      (fun _ => ⟨none, some ⟨200⟩, some ⟨none, ⟨none, ""⟩⟩⟩) (Or.inl rfl)
  · exact c10_missing_type_guard.2.2 "dev" []
      (fun _ => ⟨none, some ⟨200⟩, some ⟨none, ⟨none, ""⟩⟩⟩)

theorem getLngLats_odd (s : String)
    (hodd : (flattenJVs (splitStrToJVs s)).length % 2 = 1) :
    getLngLats (.str s) = .error () := by
  change (if (flattenJVs (splitStrToJVs s)).length = 2
      then (pure (JV.arr (flattenJVs (splitStrToJVs s))) : Except Unit JV)
      else if (flattenJVs (splitStrToJVs s)).length % 2 ≠ 0 then throw ()
      else pure (.arr (pairUp (flattenJVs (splitStrToJVs s))))) = Except.error ()
  rw [if_neg (by omega), if_pos (by omega)]
  rfl

theorem convertGeoOddErr (t : String) (ht : t ∈ validatedGeoTags) (s : String)
    (he : getLngLats (.str s) = .error ())
    (oid : Option String) (mu : Option JV) :
    convertNGSIv2ToLD (.mk t (.str s) .nil oid mu) = .error () := by
  fin_cases ht <;>
  · change Except.bind (Except.bind (getLngLats (.str s)) _) _ = _
    rw [he]
    rfl

theorem formatAttrs_err_head (name : String) (a : V2Attr)
    (rest : List (String × V2Attr)) (obj : Fields)
    (h1 : name ≠ "@context") (h2 : name ≠ TIMESTAMP_ATTRIBUTE)
    (hc : convertNGSIv2ToLD a = .error ()) :
    formatAttrs ((name, a) :: rest) obj = .error () := by
  unfold formatAttrs
  rw [if_neg (by rintro (h | h); exact h1 h; exact h2 h)]
  rw [hc]
  rfl

theorem formatAsNGSILD_err_head (cfg : Cfg) (eid ety : Option String)
    (name : String) (a : V2Attr) (rest : List (String × V2Attr))
    (h1 : name ≠ "@context") (h2 : name ≠ TIMESTAMP_ATTRIBUTE)
    (hc : convertNGSIv2ToLD a = .error ()) :
    formatAsNGSILD cfg ⟨eid, ety, (name, a) :: rest⟩ = .error () := by
  have hfa := formatAttrs_err_head name a rest
  cases eid <;> cases ety <;>
  · change Except.bind (formatAttrs ((name, a) :: rest) _) _ = _
    rw [hfa _ h1 h2 hc]
    rfl

/-- C6 counterexample: a `multilinestring` attribute with the odd-length flat
coordinate list `"1,2,3"` does not make the update call fail — the raw value
is forwarded unvalidated and a payload is sent to the broker. -/
theorem c6_counterexample :
    sendUpdateValueNgsiLD ⟨"ctx", false⟩ "now" "s1"
      [⟨some "g", some "multilinestring", .str "1,2,3", .nil⟩]
      (some ⟨some "T", some false, none⟩) (fun _ => none)
      (fun _ _ => ⟨none, some ⟨204⟩, none⟩) =
      ⟨[⟨"urn:ngsi-ld:T:s1",
         .cons "@context" (.arr (.cons (.str "ctx") .nil))
           (.cons "g" (.obj (.cons "type" (.str "GeoProperty") (.cons "value"
             (.obj (.cons "type" (.str "MultiLineString")
               (.cons "coordinates" (.str "1,2,3") .nil))) .nil))) .nil)⟩],
       [.release], none⟩ := by
  decide

/-- C6 (corrected): for every attribute declared with one of the validated
geometry tags (`point`, `linestring`, `polygon`, `multipoint`, with or
without the `geo:` alias), an odd-length flattened coordinate list makes the
update call fail with `BadGeocoordinates` and no payload is sent.  The
`multilinestring` and `multipolygon` families are not validated: their raw
value is forwarded (see the counterexample). -/
theorem c6_odd_geo_update_fails (t : String) (ht : t ∈ validatedGeoTags)
    (name : String) (hn1 : name ≠ "@context") (hn2 : name ≠ TIMESTAMP_ATTRIBUTE)
    (s : String) (hodd : (flattenJVs (splitStrToJVs s)).length % 2 = 1)
    (cfg : Cfg) (now entityId : String) (ti : TypeInfo) (payload : V2Entity)
    (eid ety : Option String) (oid : Option String) (mu : Option JV)
    (net : String → Fields → NetRaw) :
    sendUpdateStageB cfg now entityId ti payload
      (some (.single ⟨eid, ety, [(name, .mk t (.str s) .nil oid mu)]⟩)) net =
      ⟨[], [], some .badGeocoordinates⟩ := by
  have hconv := convertGeoOddErr t ht s (getLngLats_odd s hodd) oid mu
  have hits : isTimestampedE ⟨none, none, [(name, V2Attr.mk t (.str s) .nil oid mu)]⟩ = false := by
    simp [isTimestampedE, hn2]
  have hfmt1 := formatAsNGSILD_err_head cfg (some entityId) ti.type name
    (V2Attr.mk t (.str s) .nil oid mu)
    [(TIMESTAMP_ATTRIBUTE, V2Attr.mk "DateTime" (.str now) .nil none none)] hn1 hn2 hconv
  have hfmt2 := formatAsNGSILD_err_head cfg (some entityId) ti.type name
    (V2Attr.mk t (.str s) .nil oid mu) [] hn1 hn2 hconv
  by_cases hts : tsEnabled ti cfg
  · simp [sendUpdateStageB, stripIdType, hts, hits, addTimestampE, purge, hfmt1]
    rfl
  · simp [sendUpdateStageB, stripIdType, hts, purge, hfmt2]
    rfl

/-- C6 witness: the theorem applied to a `linestring` attribute with value
`"1,2,3"`. -/
theorem c6_witness :
    sendUpdateStageB ⟨"ctx", false⟩ "now" "s1" ⟨some "T", some false, none⟩
      ⟨some "s1", some "T", []⟩
      (some (.single ⟨some "s1", some "T",
        [("g", .mk "linestring" (.str "1,2,3") .nil none none)]⟩))
      (fun _ _ => ⟨none, some ⟨204⟩, none⟩) =
      ⟨[], [], some .badGeocoordinates⟩ :=
  c6_odd_geo_update_fails "linestring" (by decide) "g" (by decide) (by decide)
    "1,2,3" (by decide) ⟨"ctx", false⟩ "now" "s1" ⟨some "T", some false, none⟩
    ⟨some "s1", some "T", []⟩ (some "s1") (some "T") none none
    (fun _ _ => ⟨none, some ⟨204⟩, none⟩)

/-- Structural induction for `MetaList` alone. -/
theorem metaListInd {motive : MetaList → Prop} (nil : motive .nil)
    (cons : ∀ k a rest, motive rest → motive (.cons k a rest)) : ∀ ml, motive ml
  | .nil => nil
  | .cons k a rest => cons k a rest (metaListInd nil cons rest)

theorem convertNGSIv2ToLD_cons (ty : String) (v : JV) (k : String) (ma : V2Attr)
    (rest : MetaList) (oid : Option String) (mu : Option JV) :
    convertNGSIv2ToLD (.mk ty v (.cons k ma rest) oid mu) =
      Except.bind (convertCore (.mk ty v (.cons k ma rest) oid mu)) (fun obj =>
        Except.bind (convertMetaList (.cons k ma rest) obj) (fun objm =>
          pure (objm.delKey TIMESTAMP_ATTRIBUTE))) := rfl

theorem conv_step_ts (ma : V2Attr) (rest : MetaList) (obj : Fields) :
    convertMetaList (.cons TIMESTAMP_ATTRIBUTE ma rest) obj =
      convertMetaList rest (obj.set "observedAt" (observedAtRender ma.value)) := by
  by_cases hc : (jsStrictEq ma.value ATTRIBUTE_DEFAULT || !(momentIsValidJV ma.value)) = true
  · simp [convertMetaList, hc, observedAtRender, Except.bind]
  · simp [convertMetaList, hc, observedAtRender, Except.bind]

theorem conv_step_unit (ma : V2Attr) (rest : MetaList) (obj : Fields) :
    convertMetaList (.cons "unitCode" ma rest) obj =
      convertMetaList rest (obj.set "unitCode" ma.value) := by
  simp [convertMetaList, Except.bind, show ("unitCode" : String) ≠ TIMESTAMP_ATTRIBUTE by decide]

theorem conv_step_default (k : String) (hk1 : k ≠ TIMESTAMP_ATTRIBUTE)
    (hk2 : k ≠ "unitCode") (ma : V2Attr) (rest : MetaList) (obj : Fields) :
    convertMetaList (.cons k ma rest) obj =
      Except.bind (convertNGSIv2ToLD ma) (fun conv =>
        convertMetaList rest (obj.set k (.obj conv))) := by
  cases h : convertNGSIv2ToLD ma <;> simp [convertMetaList, hk1, hk2, h] <;> rfl

theorem convertMetaList_no_setter (ml : MetaList) : ∀ (obj obj2 : Fields),
    lastTsSetter ml = none → convertMetaList ml obj = .ok obj2 →
    obj2.getKey "observedAt" = obj.getKey "observedAt" := by
  induction ml using metaListInd with
  | nil =>
      intro obj obj2 _ hc
      simp only [convertMetaList, pure, Except.pure, Except.ok.injEq] at hc
      rw [← hc]
  | cons k a rest ih =>
      intro obj obj2 hts hc
      cases hr : lastTsSetter rest with
      | some p => simp [lastTsSetter, hr] at hts
      | none =>
          have hk : ¬(k = TIMESTAMP_ATTRIBUTE ∨ k = "observedAt") := by
            intro h
            simp [lastTsSetter, hr, h] at hts
          have hk1 : k ≠ TIMESTAMP_ATTRIBUTE := fun h => hk (Or.inl h)
          have hk2 : k ≠ "observedAt" := fun h => hk (Or.inr h)
          by_cases hku : k = "unitCode"
          · subst hku
            rw [conv_step_unit] at hc
            rw [ih _ _ hr hc]
            exact Fields.getKey_set_ne obj "unitCode" "observedAt" _ (by decide)
          · rw [conv_step_default k hk1 hku] at hc
            cases hca : convertNGSIv2ToLD a with
            | error u => rw [hca] at hc; exact absurd hc (by simp [Except.bind])
            | ok conv =>
                rw [hca] at hc
                simp only [Except.bind] at hc
                rw [ih _ _ hr hc]
                exact Fields.getKey_set_ne obj k "observedAt" _ hk2

theorem convertMetaList_ts_setter (ml : MetaList) : ∀ (obj obj2 : Fields) (tsA : V2Attr),
    lastTsSetter ml = some (TIMESTAMP_ATTRIBUTE, tsA) →
    convertMetaList ml obj = .ok obj2 →
    obj2.getKey "observedAt" = some (observedAtRender tsA.value) := by
  induction ml using metaListInd with
  | nil => intro obj obj2 tsA hts _; simp [lastTsSetter] at hts
  | cons k a rest ih =>
      intro obj obj2 tsA hts hc
      cases hr : lastTsSetter rest with
      | some p =>
          have hp : p = (TIMESTAMP_ATTRIBUTE, tsA) := by
            simp [lastTsSetter, hr] at hts
            exact hts
          subst hp
          by_cases hk : k = TIMESTAMP_ATTRIBUTE
          · subst hk
            rw [conv_step_ts] at hc
            exact ih _ _ _ hr hc
          · by_cases hku : k = "unitCode"
            · subst hku
              rw [conv_step_unit] at hc
              exact ih _ _ _ hr hc
            · rw [conv_step_default k hk hku] at hc
              cases hca : convertNGSIv2ToLD a with
              | error u => rw [hca] at hc; exact absurd hc (by simp [Except.bind])
              | ok conv =>
                  rw [hca] at hc
                  simp only [Except.bind] at hc
                  exact ih _ _ _ hr hc
      | none =>
          have hka : k = TIMESTAMP_ATTRIBUTE ∧ a = tsA := by
            by_cases hk : k = TIMESTAMP_ATTRIBUTE ∨ k = "observedAt"
            · simp only [lastTsSetter, hr, if_pos hk, Option.some.injEq, Prod.mk.injEq] at hts
              exact hts
            · simp [lastTsSetter, hr, if_neg hk] at hts
          obtain ⟨rfl, rfl⟩ := hka
          rw [conv_step_ts] at hc
          rw [convertMetaList_no_setter rest _ _ hr hc, Fields.getKey_set_self]

/-- C8 counterexample: an attribute carrying a (valid) timestamp metadata
entry followed by a metadata entry literally named `observedAt` ends with its
`observedAt` field overwritten by the converted `observedAt` entry, not the
ISO-8601 rendering of the timestamp. -/
theorem c8_counterexample :
    convertNGSIv2ToLD (.mk "string" (.str "v")
      (.cons "TimeInstant" (.mk "DateTime" (.str "2020-01-01T00:00:00Z") .nil none none)
        (.cons "observedAt" (.mk "String" (.str "gotcha") .nil none none) .nil)) none none) =
      .ok (.cons "type" (.str "Property") (.cons "value" (.str "v")
        (.cons "observedAt" (.obj (.cons "type" (.str "Property")
          (.cons "value" (.str "gotcha") .nil))) .nil))) ∧
    (Fields.cons "type" (.str "Property") (.cons "value" (.str "v")
      (.cons "observedAt" (.obj (.cons "type" (.str "Property")
        (.cons "value" (.str "gotcha") .nil))) .nil))).getKey "observedAt" ≠
      some (.str "2020-01-01T00:00:00.000Z") := by
  constructor
  · decide
  · decide

/-- C8 (corrected): when the last `observedAt`-writing metadata entry of an
attribute is its timestamp (`TimeInstant`) entry, the converted attribute's
`observedAt` field is the UTC-normalized ISO-8601 rendering of that
timestamp, falling back to the fixed default timestamp string when the
timestamp equals the sentinel default or is unparseable (a later metadata
entry literally named `observedAt` would overwrite the field instead — see
the counterexample); and the legacy root-level timestamp attribute is never
emitted at the top level of the linked-data envelope. -/
theorem c8_observedAt_promotion :
    (∀ (a : V2Attr) (F : Fields) (tsA : V2Attr),
      convertNGSIv2ToLD a = .ok F →
      lastTsSetter a.metadata = some (TIMESTAMP_ATTRIBUTE, tsA) →
      F.getKey "observedAt" = some (observedAtRender tsA.value)) ∧
    (∀ (cfg : Cfg) (e : V2Entity) (F : Fields),
      formatAsNGSILD cfg e = .ok F → F.hasKey TIMESTAMP_ATTRIBUTE = false) := by
  constructor
  · intro a F tsA hconv hts
    rcases a with ⟨ty, v, ml, oid, mu⟩
    cases ml with
    | nil => simp [V2Attr.metadata, lastTsSetter] at hts
    | cons k ma rest =>
        rw [convertNGSIv2ToLD_cons] at hconv
        cases hcore : convertCore (.mk ty v (.cons k ma rest) oid mu) with
        | error u => rw [hcore] at hconv; exact absurd hconv (by simp [Except.bind])
        | ok obj0 =>
            rw [hcore] at hconv
            simp only [Except.bind] at hconv
            cases hml : convertMetaList (.cons k ma rest) obj0 with
            | error u => rw [hml] at hconv; exact absurd hconv (by simp)
            | ok objm =>
                rw [hml] at hconv
                simp only [pure, Except.pure, Except.ok.injEq] at hconv
                subst hconv
                rw [Fields.getKey_del_ne objm TIMESTAMP_ATTRIBUTE "observedAt" (by decide)]
                exact convertMetaList_ts_setter (.cons k ma rest) obj0 objm tsA hts hml
  · intro cfg e F h
    rcases e with ⟨eid, ety, attrs⟩
    cases eid <;> cases ety <;>
    · rw [show formatAsNGSILD cfg ⟨_, _, attrs⟩ =
        Except.bind (formatAttrs attrs _) (fun obj =>
          pure (obj.delKey TIMESTAMP_ATTRIBUTE)) from rfl] at h
      cases hfa : formatAttrs attrs _ with
      | error u =>
          rw [hfa] at h
          exact absurd h (by simp [Except.bind])
      | ok objX =>
          rw [hfa] at h
          simp only [Except.bind, pure, Except.pure, Except.ok.injEq] at h
          subst h
          exact Fields.hasKey_del_self objX TIMESTAMP_ATTRIBUTE

/-- C8 witness: the theorem applied to an attribute whose only metadata entry
is a valid timestamp, and to a formatted entity whose only attribute key is
the legacy timestamp attribute. -/
theorem c8_witness :
    convertNGSIv2ToLD (.mk "string" (.str "v")
      (.cons "TimeInstant" (.mk "DateTime" (.str "2020-01-01T00:00:00Z") .nil none none) .nil)
      none none) =
      .ok (.cons "type" (.str "Property") (.cons "value" (.str "v")
        (.cons "observedAt" (.str "2020-01-01T00:00:00.000Z") .nil))) ∧
    (Fields.cons "type" (.str "Property") (.cons "value" (.str "v")
      (.cons "observedAt" (.str "2020-01-01T00:00:00.000Z") .nil))).getKey "observedAt" =
      some (observedAtRender (.str "2020-01-01T00:00:00Z")) ∧
    formatAsNGSILD ⟨"ctx", false⟩ ⟨some "s1", some "T",
      [("TimeInstant", .mk "DateTime" (.str "2020-01-01T00:00:00Z") .nil none none)]⟩ =
      .ok (.cons "@context" (.arr (.cons (.str "ctx") .nil))
        (.cons "id" (.str "urn:ngsi-ld:T:s1") (.cons "type" (.str "T") .nil))) ∧
    (Fields.cons "@context" (.arr (.cons (.str "ctx") .nil))
      (.cons "id" (.str "urn:ngsi-ld:T:s1")
        (.cons "type" (.str "T") .nil))).hasKey "TimeInstant" = false := by
  refine ⟨by decide, ?_, by decide, ?_⟩
  · exact c8_observedAt_promotion.1
      (.mk "string" (.str "v")
        (.cons "TimeInstant" (.mk "DateTime" (.str "2020-01-01T00:00:00Z") .nil none none) .nil)
        none none)
      (.cons "type" (.str "Property") (.cons "value" (.str "v")
        (.cons "observedAt" (.str "2020-01-01T00:00:00.000Z") .nil)))
      (.mk "DateTime" (.str "2020-01-01T00:00:00Z") .nil none none)
      (by decide) (by decide)
  · exact c8_observedAt_promotion.2 ⟨"ctx", false⟩
      ⟨some "s1", some "T",
        [("TimeInstant", .mk "DateTime" (.str "2020-01-01T00:00:00Z") .nil none none)]⟩
      (.cons "@context" (.arr (.cons (.str "ctx") .nil))
        (.cons "id" (.str "urn:ngsi-ld:T:s1") (.cons "type" (.str "T") .nil)))
      (by decide)

theorem Fields.hasKey_set_ne (F : Fields) (k0 k : String) (v : JV) (h : k0 ≠ k) :
    (F.set k0 v).hasKey k = F.hasKey k := by
  rw [Fields.hasKey, Fields.hasKey, Fields.getKey_set_ne F k0 k v h]

theorem convertCore_no_oid (a : V2Attr) (F : Fields)
    (h : convertCore a = .ok F) : F.hasKey "object_id" = false := by
  unfold convertCore at h
  split at h
  all_goals first
    | (simp only [Except.ok.injEq] at h
       subst h
       simp [Fields.hasKey, Fields.getKey, Fields.set, Fields.delKey])
    | (split at h <;>
        (simp only [Except.ok.injEq] at h
         subst h
         simp [Fields.hasKey, Fields.getKey, Fields.set]))
    | (cases hg : getLngLats a.value with
       | error u =>
           rw [hg] at h
           exact absurd h (fun hh => Except.noConfusion hh)
       | ok c =>
           rw [hg] at h
           have hF := Except.ok.inj h
           subst hF
           simp [Fields.hasKey, Fields.getKey, Fields.set])

theorem convertNGSIv2ToLD_nil (ty : String) (v : JV) (oid : Option String) (mu : Option JV) :
    convertNGSIv2ToLD (.mk ty v .nil oid mu) = convertCore (.mk ty v .nil oid mu) := by
  cases h : convertCore (.mk ty v .nil oid mu) <;>
  · change Except.bind (convertCore (.mk ty v .nil oid mu)) _ = _
    rw [h]
    rfl

theorem convertMeta_no_oid (ml : MetaList) : ∀ (obj obj2 : Fields),
    metaListFree "object_id" ml = true →
    obj.hasKey "object_id" = false →
    convertMetaList ml obj = .ok obj2 →
    obj2.hasKey "object_id" = false := by
  induction ml using metaListInd with
  | nil =>
      intro obj obj2 _ hobj hc
      simp only [convertMetaList, pure, Except.pure, Except.ok.injEq] at hc
      rw [← hc]
      exact hobj
  | cons k a rest ih =>
      intro obj obj2 hml hobj hc
      simp only [metaListFree, Bool.and_eq_true, Bool.not_eq_eq_eq_not, Bool.not_true,
        decide_eq_false_iff_not] at hml
      obtain ⟨⟨hk, hma⟩, hrest⟩ := hml
      by_cases hts : k = TIMESTAMP_ATTRIBUTE
      · subst hts
        rw [conv_step_ts] at hc
        exact ih _ _ hrest (by rw [Fields.hasKey_set_ne _ _ _ _ (by decide)]; exact hobj) hc
      · by_cases hku : k = "unitCode"
        · subst hku
          rw [conv_step_unit] at hc
          exact ih _ _ hrest (by rw [Fields.hasKey_set_ne _ _ _ _ (by decide)]; exact hobj) hc
        · rw [conv_step_default k hts hku] at hc
          cases hca : convertNGSIv2ToLD a with
          | error u => rw [hca] at hc; exact absurd hc (by simp [Except.bind])
          | ok conv =>
              rw [hca] at hc
              simp only [Except.bind] at hc
              exact ih _ _ hrest (by rw [Fields.hasKey_set_ne _ _ _ _ hk]; exact hobj) hc

theorem convert_no_oid (a : V2Attr) (ha : attrMetaFree "object_id" a = true)
    (F : Fields) (h : convertNGSIv2ToLD a = .ok F) : F.hasKey "object_id" = false := by
  rcases a with ⟨ty, v, ml, oid, mu⟩
  have hml : metaListFree "object_id" ml = true := ha
  cases ml with
  | nil =>
      rw [convertNGSIv2ToLD_nil] at h
      exact convertCore_no_oid _ F h
  | cons k ma rest =>
      rw [convertNGSIv2ToLD_cons] at h
      cases hcore : convertCore (.mk ty v (.cons k ma rest) oid mu) with
      | error u => rw [hcore] at h; exact absurd h (by simp [Except.bind])
      | ok obj0 =>
          rw [hcore] at h
          simp only [Except.bind] at h
          cases hmc : convertMetaList (.cons k ma rest) obj0 with
          | error u => rw [hmc] at h; exact absurd h (by simp)
          | ok objm =>
              rw [hmc] at h
              simp only [pure, Except.pure, Except.ok.injEq] at h
              subst h
              rw [Fields.hasKey, Fields.getKey_del_ne objm _ _ (by decide), ← Fields.hasKey]
              exact convertMeta_no_oid (.cons k ma rest) obj0 objm hml
                (convertCore_no_oid _ obj0 hcore) hmc

theorem formatAttrs_cons_skip (name : String) (a : V2Attr)
    (rest : List (String × V2Attr)) (obj : Fields)
    (h : name = "@context" ∨ name = TIMESTAMP_ATTRIBUTE) :
    formatAttrs ((name, a) :: rest) obj = formatAttrs rest obj := by
  show (if name = "@context" ∨ name = TIMESTAMP_ATTRIBUTE then formatAttrs rest obj
    else Except.bind (convertNGSIv2ToLD a)
      (fun c => formatAttrs rest (obj.set name (.obj c)))) = formatAttrs rest obj
  rw [if_pos h]

theorem formatAttrs_cons_conv (name : String) (a : V2Attr)
    (rest : List (String × V2Attr)) (obj : Fields)
    (h : ¬(name = "@context" ∨ name = TIMESTAMP_ATTRIBUTE)) :
    formatAttrs ((name, a) :: rest) obj =
      Except.bind (convertNGSIv2ToLD a) (fun c => formatAttrs rest (obj.set name (.obj c))) := by
  show (if name = "@context" ∨ name = TIMESTAMP_ATTRIBUTE then formatAttrs rest obj
    else Except.bind (convertNGSIv2ToLD a)
      (fun c => formatAttrs rest (obj.set name (.obj c)))) = _
  rw [if_neg h]

theorem formatAttrs_good : ∀ (attrs : List (String × V2Attr)) (obj obj2 : Fields),
    (∀ p ∈ attrs, attrMetaFree "object_id" p.2 = true) →
    (∀ k v, (k, v) ∈ obj.toList → GoodKV k v) →
    formatAttrs attrs obj = .ok obj2 →
    ∀ k v, (k, v) ∈ obj2.toList → GoodKV k v := by
  intro attrs
  induction attrs with
  | nil =>
      intro obj obj2 _ hobj h
      simp only [formatAttrs, pure, Except.pure, Except.ok.injEq] at h
      subst h
      exact hobj
  | cons p rest ih =>
      rcases p with ⟨name, a⟩
      intro obj obj2 hclean hobj h
      by_cases hskip : name = "@context" ∨ name = TIMESTAMP_ATTRIBUTE
      · rw [formatAttrs_cons_skip _ _ _ _ hskip] at h
        exact ih obj obj2 (fun q hq => hclean q (by simp [hq])) hobj h
      · rw [formatAttrs_cons_conv _ _ _ _ hskip] at h
        cases hca : convertNGSIv2ToLD a with
        | error u => rw [hca] at h; exact absurd h (by simp [Except.bind])
        | ok c =>
            rw [hca] at h
            simp only [Except.bind] at h
            have hnoid : c.hasKey "object_id" = false :=
              convert_no_oid a (hclean (name, a) (by simp)) c hca
            refine ih (obj.set name (.obj c)) obj2 (fun q hq => hclean q (by simp [hq])) ?_ h
            intro k v hkv
            rcases Fields.mem_set obj name (.obj c) (k, v) hkv with heq | hmem
            · simp only [Prod.mk.injEq] at heq
              obtain ⟨rfl, rfl⟩ := heq
              exact Or.inr (Or.inr (Or.inr ⟨c, rfl, hnoid⟩))
            · exact hobj k v hmem

theorem goodKV_base (x : JV) :
    ∀ k v, (k, v) ∈ (Fields.cons "@context" x Fields.nil).toList → GoodKV k v := by
  intro k v h
  simp only [Fields.toList, List.mem_singleton, Prod.mk.injEq] at h
  obtain ⟨rfl, rfl⟩ := h
  exact Or.inl rfl

theorem goodKV_set_id (F : Fields)
    (hF : ∀ k v, (k, v) ∈ F.toList → GoodKV k v) (x : JV) :
    ∀ k v, (k, v) ∈ (F.set "id" x).toList → GoodKV k v := by
  intro k v h
  rcases Fields.mem_set F "id" x (k, v) h with heq | hm
  · simp only [Prod.mk.injEq] at heq
    obtain ⟨rfl, rfl⟩ := heq
    exact Or.inr (Or.inl rfl)
  · exact hF k v hm

theorem goodKV_set_type (F : Fields)
    (hF : ∀ k v, (k, v) ∈ F.toList → GoodKV k v) (x : JV) :
    ∀ k v, (k, v) ∈ (F.set "type" x).toList → GoodKV k v := by
  intro k v h
  rcases Fields.mem_set F "type" x (k, v) h with heq | hm
  · simp only [Prod.mk.injEq] at heq
    obtain ⟨rfl, rfl⟩ := heq
    exact Or.inr (Or.inr (Or.inl rfl))
  · exact hF k v hm

theorem formatAsNGSILD_good (cfg : Cfg) (e : V2Entity) (F : Fields)
    (hclean : entityClean e = true) (h : formatAsNGSILD cfg e = .ok F) :
    ∀ k v, (k, v) ∈ F.toList → GoodKV k v := by
  have hattrs : ∀ p ∈ e.attrs, attrMetaFree "object_id" p.2 = true := by
    rcases e with ⟨eid, ety, attrs⟩
    simpa [entityClean, List.all_eq_true] using hclean
  rcases e with ⟨eid, ety, attrs⟩
  simp only at hattrs
  cases eid <;> cases ety <;>
  · rw [show formatAsNGSILD cfg ⟨_, _, attrs⟩ =
      Except.bind (formatAttrs attrs _) (fun obj =>
        pure (obj.delKey TIMESTAMP_ATTRIBUTE)) from rfl] at h
    cases hfa : formatAttrs attrs _ with
    | error u =>
        rw [hfa] at h
        exact absurd h (by simp [Except.bind])
    | ok objX =>
        rw [hfa] at h
        simp only [Except.bind, pure, Except.pure, Except.ok.injEq] at h
        subst h
        intro k v hkv
        obtain ⟨hmem, hne⟩ := Fields.mem_del objX TIMESTAMP_ATTRIBUTE (k, v) hkv
        refine formatAttrs_good attrs _ objX hattrs ?_ hfa k v hmem
        first
          | exact goodKV_base _
          | exact goodKV_set_id _ (goodKV_base _) _
          | exact goodKV_set_type _ (goodKV_base _) _
          | exact goodKV_set_type _ (goodKV_set_id _ (goodKV_base _) _) _

theorem mapFormat_mem (cfg : Cfg) : ∀ (es : List V2Entity) (lds : List Fields),
    mapFormat cfg es = .ok lds → ∀ l ∈ lds, ∃ e ∈ es, formatAsNGSILD cfg e = .ok l := by
  intro es
  induction es with
  | nil =>
      intro lds h l hl
      simp only [mapFormat, pure, Except.pure, Except.ok.injEq] at h
      subst h
      simp at hl
  | cons e rest ih =>
      intro lds h l hl
      rw [show mapFormat cfg (e :: rest) =
        Except.bind (formatAsNGSILD cfg e) (fun f =>
          Except.bind (mapFormat cfg rest) (fun r => pure (f :: r))) from rfl] at h
      cases hf : formatAsNGSILD cfg e with
      | error u => rw [hf] at h; exact absurd h (by simp [Except.bind])
      | ok f =>
          rw [hf] at h
          simp only [Except.bind] at h
          cases hr : mapFormat cfg rest with
          | error u => rw [hr] at h; exact absurd h (by simp)
          | ok r =>
              rw [hr] at h
              simp only [pure, Except.pure, Except.ok.injEq] at h
              subst h
              rcases List.mem_cons.mp hl with rfl | hl2
              · exact ⟨e, by simp, hf⟩
              · rcases ih r hr l hl2 with ⟨e2, he2, hfe2⟩
                exact ⟨e2, by simp [he2], hfe2⟩

theorem runSeries_sent_from (d : String) (net : String → Fields → NetRaw) :
    ∀ (lds : List Fields) (s : Sent),
    s ∈ (runSeriesLD d net lds).sent → ∃ e ∈ lds, s.payload = wireOf e := by
  intro lds
  induction lds with
  | nil => intro s hs; simp [runSeriesLD] at hs
  | cons e rest ih =>
      intro s hs
      simp only [runSeriesLD] at hs
      by_cases hlen : (wireOf e).length ≤ 1
      · rw [if_pos hlen] at hs
        rcases ih s hs with ⟨e2, he2, hp⟩
        exact ⟨e2, by simp [he2], hp⟩
      · rw [if_neg hlen] at hs
        cases hh : (generateNGSILDOperationHandler "update" (entityIdOf e) d
            (net (entityIdOf e) (wireOf e))).2 with
        | none =>
            rw [hh] at hs
            simp only [List.mem_cons] at hs
            rcases hs with rfl | hs2
            · exact ⟨e, by simp, rfl⟩
            · rcases ih s hs2 with ⟨e2, he2, hp⟩
              exact ⟨e2, by simp [he2], hp⟩
        | some err =>
            rw [hh] at hs
            simp only [List.mem_singleton] at hs
            subst hs
            exact ⟨e, by simp, rfl⟩

theorem entityClean_stripIdType (e : V2Entity) :
    entityClean (stripIdType e) = entityClean e := rfl

theorem entityClean_withIdType (e : V2Entity) (x y : Option String) :
    entityClean ⟨x, y, e.attrs⟩ = entityClean e := rfl

theorem entityClean_addTimestampE (now : String) (e : V2Entity)
    (h : entityClean e = true) : entityClean (addTimestampE now e) = true := by
  simp only [entityClean, addTimestampE, List.all_append, Bool.and_eq_true] at h ⊢
  exact ⟨h, by rfl⟩

theorem entityClean_purgeEntity (e : V2Entity) :
    entityClean (purgeEntity e) = entityClean e := by
  rcases e with ⟨eid, ety, attrs⟩
  simp only [entityClean, purgeEntity, List.all_map]
  congr 1
  funext p
  rcases p with ⟨n, a⟩
  rcases a with ⟨ty, v, ml, oid, mu⟩
  rfl


theorem stageB_sent_shape (cfg : Cfg) (now entityId : String) (ti : TypeInfo)
    (payload : V2Entity) (result : Option MWJson) (net : String → Fields → NetRaw)
    (hclean : mwClean result payload = true) :
    ∀ s ∈ (sendUpdateStageB cfg now entityId ti payload result net).sent,
    ∃ ev F, entityClean ev = true ∧ formatAsNGSILD cfg ev = .ok F ∧
      s.payload = wireOf F := by
  intro s hs
  rcases result with _ | mj
  · cases hf : formatAsNGSILD cfg ⟨some entityId, ti.type, payload.attrs⟩ with
    | error u =>
        simp [sendUpdateStageB, purge, stripIdType, hf, Except.map] at hs
    | ok F0 =>
        simp only [sendUpdateStageB, purge, stripIdType, hf, Except.map] at hs
        rcases runSeries_sent_from _ net [F0] s hs with ⟨e2, he2, hp⟩
        simp only [List.mem_singleton] at he2
        subst he2
        exact ⟨⟨some entityId, ti.type, payload.attrs⟩, e2, hclean, hf, hp⟩
  · rcases mj with es | e0
    · simp only [sendUpdateStageB, purge] at hs
      split at hs
      · simp at hs
      · split at hs
        · simp at hs
        · rename_i step1v json0 heq encv lds hm
          split at heq
          · exact absurd heq (by simp)
          · have hj := Except.ok.inj heq
            subst hj
            simp only [purge] at hm
            rcases runSeries_sent_from _ net lds s hs with ⟨e2, he2, hp⟩
            rcases mapFormat_mem cfg (es.map purgeEntity) lds hm e2 he2 with ⟨e3, he3, hfe3⟩
            rcases List.mem_map.mp he3 with ⟨e4, he4, rfl⟩
            refine ⟨purgeEntity e4, e2, ?_, hfe3, hp⟩
            rw [entityClean_purgeEntity]
            simp only [mwClean, List.all_eq_true] at hclean
            exact hclean e4 he4
    · have hcl : entityClean e0 = true := hclean
      simp only [sendUpdateStageB, purge, stripIdType] at hs
      split at hs
      · simp at hs
      · split at hs
        · simp at hs
        · rename_i step1v json0 heq encv lds hm
          have hsingle : ∀ ev0 : V2Entity, json0 = .single ev0 →
              entityClean ev0 = true →
              ∃ ev F, entityClean ev = true ∧ formatAsNGSILD cfg ev = .ok F ∧
                s.payload = wireOf F := by
            intro ev0 hj hcl0
            subst hj
            simp only [purge] at hm
            cases hf : formatAsNGSILD cfg ⟨some entityId, ti.type, ev0.attrs⟩ with
            | error u => rw [hf] at hm; exact absurd hm (by simp [Except.map])
            | ok F0 =>
                rw [hf] at hm
                simp only [Except.map, Except.ok.injEq] at hm
                subst hm
                rcases runSeries_sent_from _ net [F0] s hs with ⟨e2, he2, hp⟩
                simp only [List.mem_singleton] at he2
                subst he2
                exact ⟨⟨some entityId, ti.type, ev0.attrs⟩, e2, hcl0, hf, hp⟩
          split at heq
          · split at heq
            · have hj := (Except.ok.inj heq).symm
              exact hsingle _ hj (entityClean_addTimestampE now ⟨none, none, e0.attrs⟩ hcl)
            · split at heq
              · exact absurd heq (by simp)
              · exact hsingle _ (Except.ok.inj heq).symm hcl
          · exact hsingle _ (Except.ok.inj heq).symm hcl

/-- C2 counterexample: in the single-entity (plain object) payload shape the
purge loop strips nothing — an attribute carrying the internal disambiguation
key `object_id` still carries it when encoding begins — while the same entity
inside an array payload is stripped.  The claim's "stripped before encoding
in both payload shapes" therefore fails for the single-entity shape. -/
theorem c2_counterexample :
    purge (.single ⟨some "s1", some "T",
      [("a", .mk "Number" (.num 1) .nil (some "oid_a") none)]⟩) =
      .single ⟨some "s1", some "T",
        [("a", .mk "Number" (.num 1) .nil (some "oid_a") none)]⟩ ∧
    (V2Attr.mk "Number" (.num 1) .nil (some "oid_a") none).objectId = some "oid_a" ∧
    purge (.arr [⟨some "s1", some "T",
      [("a", .mk "Number" (.num 1) .nil (some "oid_a") none)]⟩]) =
      .arr [⟨some "s1", some "T", [("a", .mk "Number" (.num 1) .nil none none)]⟩] := by
  refine ⟨by decide, by decide, by decide⟩

/-- C2 (corrected): no attribute object in any wire payload an update run
sends carries the internal disambiguation key `object_id` (assuming no
metadata entry is itself named `object_id`).  The key is stripped by the
purge loop only in the multi-entity (array) payload shape; in the
single-entity shape the purge loop is dead code (see the counterexample),
but the NGSI-LD encoding rebuilds every attribute object from its type,
value and metadata, so the key still never reaches the wire. -/
theorem c2_wire_payload_free_of_object_id (cfg : Cfg) (now entityId : String)
    (ti : TypeInfo) (payload : V2Entity) (result : Option MWJson)
    (net : String → Fields → NetRaw)
    (hclean : mwClean result payload = true)
    (s : Sent) (hs : s ∈ (sendUpdateStageB cfg now entityId ti payload result net).sent)
    (k : String) (v : JV) (hkv : (k, v) ∈ s.payload.toList) (hk : k ≠ "@context") :
    ∃ fs, v = .obj fs ∧ fs.hasKey "object_id" = false := by
  rcases stageB_sent_shape cfg now entityId ti payload result net hclean s hs with
    ⟨ev, F, hcl, hf, hp⟩
  rw [hp] at hkv
  obtain ⟨h1, hne_t⟩ := Fields.mem_del (F.delKey "id") "type" (k, v) hkv
  obtain ⟨h2, hne_i⟩ := Fields.mem_del F "id" (k, v) h1
  have hg := formatAsNGSILD_good cfg ev F hcl hf k v h2
  rcases hg with hg | hg | hg | hg
  · exact absurd hg hk
  · exact absurd hg hne_i
  · exact absurd hg hne_t
  · exact hg

/-- C2 witness: the theorem applied to a concrete single-entity run whose
attribute carries an `object_id`; the attribute object that reaches the wire
has no `object_id` key. -/
theorem c2_witness :
    ∃ fs, JV.obj (.cons "type" (.str "Property") (.cons "value" (.num 1) .nil)) = .obj fs ∧
      fs.hasKey "object_id" = false :=
  c2_wire_payload_free_of_object_id ⟨"ctx", false⟩ "now" "s1"
    ⟨some "T", some false, none⟩ ⟨some "s1", some "T", []⟩
    (some (.single ⟨some "s1", some "T",
      [("a", .mk "Number" (.num 1) .nil (some "oid_a") none)]⟩))
    (fun _ _ => ⟨none, some ⟨204⟩, none⟩) (by decide)
    ⟨"urn:ngsi-ld:T:s1", .cons "@context" (.arr (.cons (.str "ctx") .nil))
      (.cons "a" (.obj (.cons "type" (.str "Property") (.cons "value" (.num 1) .nil))) .nil)⟩
    (by decide) "a" (.obj (.cons "type" (.str "Property") (.cons "value" (.num 1) .nil)))
    (by decide) (by decide)
